import Mathlib

/-!
Shallow embedding of the purchase-planning calculation engine of this
repository (`src/client/src/lib/engine`): `utils/dates.ts`,
`core/projection.ts` and `core/coverage.ts`, together with theorems that
settle the frozen claims about it.

Modelling conventions, fixed once here:

* JavaScript `number` values are modelled as exact rationals `ℚ`
  (the engine's arithmetic is +, -, *, /, `Math.round`, `Math.max`,
  `Math.min`, `Math.ceil` on values far from the binary64 precision
  boundary; rounding ties at exact .5 are representable exactly in ℚ).
* `Math.round x` is `⌊x + 1/2⌋` (JavaScript rounds half toward +∞).
* A JS record (`Record<string, number>`) is a total function
  `String → ℚ` with default 0: the source initialises every used key to 0
  or reads through `|| 0`, which coincides with this model.
* A demand ("sell out") map entry that is missing, non-numeric or `NaN`
  fails the source guard `typeof rawSo === 'number' && !isNaN(rawSo)`;
  such entries are modelled as `none` in `String → Option ℚ`.
* A manual-order map entry is `null`/absent (`none`) or a number
  (`some v`); the source treats `null` and `undefined` identically
  (`!== null && !== undefined`).
* Dates are modelled by their UTC day numbers (days since 1970-01-01);
  the civil-calendar conversions reproduce the proleptic Gregorian
  arithmetic of the JS `Date` UTC accessors, including the
  `Date.UTC` two-digit-year adjustment.  A `"YYYY-MM-DD"` reference-date
  string is modelled as its numeric `(year, month, day)` triple (the
  source immediately splits and `Number(...)`s it).
* Out-of-range array reads (`meses[idx]` with `idx` outside the array)
  yield `undefined` in JS, which then stringifies to the property key
  `"undefined"`; `mesAt` reproduces exactly that.
* For month keys whose components do not parse to a number, JS produces
  `NaN` and poisons the downstream date arithmetic; the model coerces the
  unparseable component to 0 (`parseMesAnoZ`).  Every theorem whose truth
  could depend on this regime is exercised on well-formed keys.
-/

namespace Planejamento

/-- A JS number that may be missing / non-numeric / `NaN` (`none`). -/
abbrev JSNum := Option ℚ

/-- The source guard `typeof v === 'number' && !isNaN(v) ? v : 0`. -/
def jsNumOr0 (v : JSNum) : ℚ := v.getD 0

/-- JS `Math.round`: round half toward positive infinity. -/
def jsRound (q : ℚ) : ℤ := ⌊q + 1/2⌋

/-! ## Civil (proleptic Gregorian) calendar arithmetic

`daysFromCivil`/`civilFromDays` convert between a calendar date and its
day number (days since 1970-01-01), exactly as the JS engine's internal
UTC calendar does. -/

/-- Day number of the civil date `(y, m, d)`, `m ∈ 1..12`
(days are allowed to overflow/underflow linearly). -/
def daysFromCivil (y m d : ℤ) : ℤ :=
  let y1 : ℤ := y - (if m ≤ 2 then 1 else 0)
  let era : ℤ := y1.fdiv 400
  let yoe : ℤ := y1 - era * 400
  let doy : ℤ := ((153 * (m + (if m > 2 then -3 else 9)) + 2).fdiv 5) + d - 1
  let doe : ℤ := yoe * 365 + yoe.fdiv 4 - yoe.fdiv 100 + doy
  era * 146097 + doe - 719468

/-- Civil date `(y, m, d)` (month 1..12, day 1..31) of a day number. -/
def civilFromDays (z0 : ℤ) : ℤ × ℤ × ℤ :=
  let z : ℤ := z0 + 719468
  let era : ℤ := z.fdiv 146097
  let doe : ℤ := z - era * 146097
  let yoe : ℤ := (doe - doe.fdiv 1460 + doe.fdiv 36524 - doe.fdiv 146096).fdiv 365
  let y : ℤ := yoe + era * 400
  let doy : ℤ := doe - (365 * yoe + yoe.fdiv 4 - yoe.fdiv 100)
  let mp : ℤ := (5 * doy + 2).fdiv 153
  let d : ℤ := doy - (153 * mp + 2).fdiv 5 + 1
  let m : ℤ := mp + (if mp < 10 then 3 else -9)
  (y + (if m ≤ 2 then 1 else 0), m, d)

/-- Source `Date.UTC` maps a year 0..99 to 1900+year. -/
def jsYearAdjust (y : ℤ) : ℤ := if 0 ≤ y ∧ y ≤ 99 then 1900 + y else y

/-- Day number of `Date.UTC(y, monthIndex, day)` (0-based month index,
both month index and day normalise by overflow, like JS). -/
def dateUTC (y monthIndex day : ℤ) : ℤ :=
  let n : ℤ := jsYearAdjust y * 12 + monthIndex
  daysFromCivil (n.fdiv 12) (n.emod 12 + 1) 1 + (day - 1)

/-- Source `diasNoMes` (dates.ts:7): `new Date(Date.UTC(ano, mes, 0)).getUTCDate()`
= day-of-month of the day before the first of the following month. -/
def diasNoMes (ano mes : ℤ) : ℤ := (civilFromDays (dateUTC ano mes 0)).2.2

/-! ## JS string splitting and `parseInt` -/

/-- Source `String.prototype.split` with a single-character separator,
on the character list. -/
def splitOnChar (sep : Char) : List Char → List (List Char)
  | [] => [[]]
  | c :: rest =>
    match splitOnChar sep rest with
    | [] => if c = sep then [[], []] else [[c]]
    | h :: t => if c = sep then [] :: h :: t else (c :: h) :: t

/-- JS whitespace stripped by `parseInt`. -/
def jsWhitespace (c : Char) : Bool :=
  c = ' ' ∨ c = '\t' ∨ c = '\n' ∨ c = '\r' ∨ c = '\x0b' ∨ c = '\x0c'

/-- Value of a decimal digit character. -/
def digitVal (c : Char) : Option ℕ :=
  if c.isDigit then some (c.toNat - 48) else none

/-- Value of a hexadecimal digit character. -/
def hexVal (c : Char) : Option ℕ :=
  if c.isDigit then some (c.toNat - 48)
  else if 'a' ≤ c ∧ c ≤ 'f' then some (c.toNat - 87)
  else if 'A' ≤ c ∧ c ≤ 'F' then some (c.toNat - 55)
  else none

/-- Longest prefix of digits, accumulated; `none` when there is none. -/
def takeDigits (dv : Char → Option ℕ) (base : ℕ) : List Char → Option ℕ → Option ℕ
  | [], acc => acc
  | c :: rest, acc =>
    match dv c with
    | none => acc
    | some v => takeDigits dv base rest (some ((acc.getD 0) * base + v))

/-- JS `parseInt(s)` without an explicit radix: optional whitespace, sign,
`0x`/`0X` hex prefix, then the longest digit prefix; `NaN` (`none`) when no
digit is found. -/
def jsParseInt (s : String) : Option ℤ :=
  let cs := s.data.dropWhile jsWhitespace
  let signed : ℤ × List Char :=
    match cs with
    | '-' :: t => (-1, t)
    | '+' :: t => (1, t)
    | t => (1, t)
  let parsed : Option ℕ :=
    match signed.2 with
    | '0' :: 'x' :: t => takeDigits hexVal 16 t none
    | '0' :: 'X' :: t => takeDigits hexVal 16 t none
    | t => takeDigits digitVal 10 t none
  parsed.map (fun v => signed.1 * (v : ℤ))

/-- Source `parseMesAno` (dates.ts:14): split on `'_'` and `parseInt` the first two
components.  The source performs no validation: a missing or unparseable
component is `NaN`, modelled as `none`.  (`parseInt(undefined)` is `NaN`.) -/
def parseMesAno (mesAno : String) : Option ℤ × Option ℤ :=
  let parts := (splitOnChar '_' mesAno.data).map (fun cs => String.mk cs)
  (jsParseInt (parts.headD ""),
   match parts.get? 1 with
   | some p => jsParseInt p
   | none => none)

/-- Source `parseMesAno` coerced to integers.  JS would propagate `NaN` where a
component is unparseable; the model coerces it to 0 — theorems touching the
parse path are exercised on well-formed keys only. -/
def parseMesAnoZ (mesAno : String) : ℤ × ℤ :=
  ((parseMesAno mesAno).1.getD 0, (parseMesAno mesAno).2.getD 0)

/-- Source `padStart(2, '0')` of a string. -/
def padStart2 (s : String) : String :=
  if s.length < 2 then String.mk (List.replicate (2 - s.length) '0') ++ s else s

/-- The month-key template `` `${ano}_${String(mes).padStart(2, '0')}` ``. -/
def mesKey (ano mes : ℤ) : String := toString ano ++ "_" ++ padStart2 (toString mes)

/-- JS `meses[idx]` for an arbitrary signed index: out-of-range reads give
`undefined`, which subsequent property accesses stringify to `"undefined"`. -/
def mesAt (meses : List String) (idx : ℤ) : String :=
  if 0 ≤ idx ∧ idx.toNat < meses.length then meses.getD idx.toNat "" else "undefined"

/-! ## Data model (engine/types.ts) -/

/-- Source `SKUCadastro` (types.ts).  Bracketed/space field names are camel-cased.
`LT` is kept integral: it is a whole number of lead-time days fed into the
date arithmetic. -/
structure SKUCadastro where
  fornecedorComercial : String
  situacao : String
  CHAVE : String
  codigo_deposito_pd : ℚ
  codigo_produto : ℚ
  nomeProduto : String
  nomeNivel3 : String
  nomeNivel4 : String
  ESTOQUE : ℚ
  PENDENCIA : ℚ
  LT : ℤ
  NNA : ℚ
  FREQUENCIA : ℚ
  EST_SEGURANCA : ℚ
  IMPACTO : ℚ
  PREECHIMENTO_DEMANDA_LOJA : ℚ

/-- Source `MesData` (types.ts): one emitted month record, all fields
`Math.round`-ed integers. -/
structure MesData where
  SELL_OUT : ℤ
  ESTOQUE_PROJETADO : ℤ
  ESTOQUE_OBJETIVO : ℤ
  PEDIDO : ℤ
  ENTRADA : ℤ
deriving DecidableEq

/-- Source `SemanaInfo` (types.ts).  `inicioDia` models the source field
`inicio`. -/
structure SemanaInfo where
  label : String
  inicioDia : ℤ
  fim : ℤ
  dias : ℤ
  dataOrdem : Option ℤ
  dataChegada : Option ℤ
  elegivel : Option Bool
  mesChegada : Option String
deriving DecidableEq

/-- Source `DetalheMesCobertura` (types.ts).  `diasDoMes` models the source field
`diasNoMes`. -/
structure DetalheMesCobertura where
  mes : String
  pedidoNormal : ℚ
  diasDoMes : ℤ
  diasAntecipados : ℤ
  proporcaoAntecipada : ℚ
  valorAntecipado : ℚ
  valorMantido : ℚ

/-- One entry of `mesesAjustados` in `CoberturaResultado` (types.ts). -/
structure MesAjustado where
  mes : String
  valorOriginal : ℚ
  valorAjustado : ℚ

/-- Source `DetalheSemanaCoberturaIntraMes` (types.ts). -/
structure DetalheSemanaCoberturaIntraMes where
  label : String
  inicioDia : ℤ
  fim : ℤ
  pedidoOriginal : ℚ
  coberta : Bool
  coberturaParcial : ℚ
  valorMantido : ℚ
  valorReduzido : ℚ

/-- The optional `intraMes` payload of `CoberturaResultado` (types.ts). -/
structure IntraMesDetalhe where
  semanasDetalhe : List DetalheSemanaCoberturaIntraMes
  totalReduzidoParaMes2 : ℚ

/-- Source `CoberturaResultado` (types.ts). -/
structure CoberturaResultado where
  chave : String
  nome : String
  cd : ℚ
  fornecedor : String
  pedidoCobertura : ℚ
  pedidoNormalMes1 : ℚ
  totalAntecipado : ℚ
  estoqueAtual : ℚ
  lt : ℤ
  diasCobertos : ℤ
  diasRestantesMesAtual : ℤ
  detalheMeses : List DetalheMesCobertura
  mesesAjustados : List MesAjustado
  intraMes : Option IntraMesDetalhe

/-! ## Week blocks and weekly distribution (dates.ts) -/

/-- One block of the loop of `calcularSemanasRestantes` (dates.ts:64-81):
skip a block entirely in the past, clip the rest to
`[diaReferencia, totalDiasMes]`, keep it only with a positive day count. -/
def semanasFoldStep (totalDiasMes diaReferencia : ℤ) (b : String × ℤ × ℤ)
    (acc : List SemanaInfo) : List SemanaInfo :=
  if b.2.2 < diaReferencia then acc
  else if 0 < min b.2.2 totalDiasMes - max b.2.1 diaReferencia + 1 then
    ⟨b.1, max b.2.1 diaReferencia, min b.2.2 totalDiasMes,
      min b.2.2 totalDiasMes - max b.2.1 diaReferencia + 1, none, none, none, none⟩ :: acc
  else acc

/-- Source `calcularSemanasRestantes` (dates.ts:46): fixed 7-day blocks
S1(1-7) .. S4(22-28) plus S5(29..) when the month has more than 28 days,
folded through `semanasFoldStep`. -/
def calcularSemanasRestantes (ano mes diaReferencia : ℤ) : List SemanaInfo :=
  let totalDiasMes := diasNoMes ano mes
  let blocos : List (String × ℤ × ℤ) :=
    [("S1", 1, 7), ("S2", 8, 14), ("S3", 15, 21), ("S4", 22, 28)] ++
      (if totalDiasMes > 28 then [("S5", 29, totalDiasMes)] else [])
  blocos.foldr (semanasFoldStep totalDiasMes diaReferencia) []

/-- Source `semanas.reduce((acc, s) => acc + s.dias, 0)` of dates.ts:176. -/
def sumDias (semanas : List SemanaInfo) : ℤ :=
  semanas.foldl (fun acc s => acc + s.dias) 0

/-- The loop of `distribuirPedidoSimples` (dates.ts:182-190): every block
except the final one receives its rounded proportional share; the final
block receives the total minus what was accumulated. -/
def dpsGo (pedidoMensal : ℚ) (totalDias : ℤ) : List SemanaInfo → ℚ → List ℚ
  | [], _ => []
  | [_s], acumulado => [pedidoMensal - acumulado]
  | s :: s2 :: resto, acumulado =>
    let valor : ℚ := (jsRound (pedidoMensal * ((s.dias : ℚ) / (totalDias : ℚ))) : ℚ)
    valor :: dpsGo pedidoMensal totalDias (s2 :: resto) (acumulado + valor)

/-- Source `distribuirPedidoSimples` (dates.ts:170). -/
def distribuirPedidoSimples (pedidoMensal : ℚ) (semanas : List SemanaInfo) : List ℚ :=
  match semanas with
  | [] => []
  | _ :: _ =>
    let totalDias := sumDias semanas
    if totalDias = 0 then semanas.map (fun _ => 0)
    else dpsGo pedidoMensal totalDias semanas 0

/-- Source `semanas.reduce((acc, s) => acc + (s.elegivel === false ? 0 : s.dias), 0)`
of dates.ts:129. -/
def diasElegiveis (semanas : List SemanaInfo) : ℤ :=
  semanas.foldl (fun acc s => acc + (if s.elegivel = some false then 0 else s.dias)) 0

/-- Index (from the start) of the last block with `elegivel !== false`;
`-1` when there is none — the backward scan of dates.ts:135-141. -/
def lastElegIdx : List SemanaInfo → ℤ
  | [] => -1
  | s :: rest =>
    let r := lastElegIdx rest
    if 0 ≤ r then r + 1
    else if s.elegivel = some false then -1 else 0

/-- The loop of `distribuirPedidoPorSemanas` (dates.ts:146-160), walking the
blocks at absolute position `i`: ineligible blocks get 0, the last eligible
block absorbs the remainder, the others get their rounded share (which is
also what is accumulated). -/
def dppGo (pedidoMensal : ℚ) (diasEleg : ℤ) (lastIdx : ℤ) :
    List SemanaInfo → ℕ → ℚ → List ℚ
  | [], _, _ => []
  | s :: rest, i, acumulado =>
    if s.elegivel = some false then 0 :: dppGo pedidoMensal diasEleg lastIdx rest (i + 1) acumulado
    else if (i : ℤ) = lastIdx then
      (pedidoMensal - acumulado) :: dppGo pedidoMensal diasEleg lastIdx rest (i + 1) acumulado
    else
      let valor : ℚ := (jsRound (pedidoMensal * ((s.dias : ℚ) / (diasEleg : ℚ))) : ℚ)
      valor :: dppGo pedidoMensal diasEleg lastIdx rest (i + 1) (acumulado + valor)

/-- Source `distribuirPedidoPorSemanas` (dates.ts:122). -/
def distribuirPedidoPorSemanas (pedidoMensal : ℚ) (semanas : List SemanaInfo) : List ℚ :=
  match semanas with
  | [] => []
  | _ :: _ =>
    let de := diasElegiveis semanas
    if de = 0 then semanas.map (fun _ => 0)
    else dppGo pedidoMensal de (lastElegIdx semanas) semanas 0 0

/-! ## Projection engine (core/projection.ts) -/

/-- Source `calcularIndiceMesChegada` (projection.ts:8).  `mes` is the month key
`meses[indiceMesPedido]` (passed in directly by the callers below, which walk
`meses` structurally).  `dataReferencia` is the already-`split('-').map(Number)`
triple of the `"YYYY-MM-DD"` reference-date string. -/
def calcularIndiceMesChegada (mes : String) (indiceMesPedido : ℕ) (ltDias : ℤ)
    (meses : List String) (dataReferencia : Option (ℤ × ℤ × ℤ)) : ℤ :=
  let mesPedido := parseMesAnoZ mes
  let dataPedido : ℤ :=
    match indiceMesPedido, dataReferencia with
    | 0, some r => dateUTC r.1 (r.2.1 - 1) r.2.2
    | _, _ => dateUTC mesPedido.1 (mesPedido.2 - 1) 1
  let dataChegada := dataPedido + ltDias
  let chegada := civilFromDays dataChegada
  let mesChegadaKey := mesKey chegada.1 chegada.2.1
  match meses.findIdx? (fun m => m = mesChegadaKey) with
  | some idxC => (idxC : ℤ)
  | none => min ((indiceMesPedido : ℤ) + ⌈(ltDias : ℚ) / 30⌉) ((meses.length : ℤ) - 1)

/-- The inputs of one `recalcularProjecaoSKU` run.  `soC` is the demand map
already passed through the source's per-read guard
`typeof rawSo === 'number' && !isNaN(rawSo) ? rawSo : 0` (applied identically
at projection.ts:70-71, 95-96, 115-116 and 153-154, so it is factored once). -/
structure ProjIn where
  cadastro : SKUCadastro
  meses : List String
  soC : String → ℚ
  pedidosManuais : String → Option ℚ
  dataReferencia : Option (ℤ × ℤ × ℤ)

/-- Source `cadastro.LT || 0` etc. are identities on total numeric fields. -/
def ProjIn.lt (P : ProjIn) : ℤ := P.cadastro.LT

/-- Derived initial stock (projection.ts:59-63). -/
def ProjIn.estoqueInicial (P : ProjIn) : ℚ :=
  P.cadastro.ESTOQUE - P.cadastro.IMPACTO - P.cadastro.PREECHIMENTO_DEMANDA_LOJA
    + P.cadastro.PENDENCIA + P.cadastro.NNA

/-- Objective stock per month key (projection.ts:68-77).  Written only for
keys of `meses`, but the written value depends on the key alone, so the
record is modelled as this total function. -/
def ProjIn.estObjPorMes (P : ProjIn) (mes : String) : ℚ :=
  let so := P.soC mes
  let am := parseMesAnoZ mes
  let diasReais := diasNoMes am.1 am.2
  (so / (diasReais : ℚ)) * ((P.lt : ℚ) + P.cadastro.FREQUENCIA + P.cadastro.EST_SEGURANCA)
    + P.cadastro.IMPACTO

/-- Point update of a JS numeric record. -/
def atualizar (f : String → ℚ) (k : String) (v : ℚ) : String → ℚ :=
  fun q => if q = k then v else f q

/-- Mid-simulation state of pass 1 (projection.ts:86-91): the final
`pedidosFinais` and `entradas` records and the carried `estAnterior`.  The
`estProj` record written at projection.ts:132 is dead after the loop (pass 2
recomputes the projection), so only its carry `estAnterior` is kept. -/
structure Pass1State where
  pedidosFinais : String → ℚ
  entradas : String → ℚ
  estAnterior : ℚ

/-- The forward simulation loop (projection.ts:114-119):
`for (j = i+1; j <= indiceChegada && j < meses.length; j++)` accumulating
already-scheduled arrivals minus demand.  `resto` is `meses` from position
`j` on, so the end of the list is exactly `j < meses.length`. -/
def simularAteChegada (P : ProjIn) (entradas : String → ℚ) :
    List String → ℕ → ℤ → ℚ → ℚ
  | [], _, _, est => est
  | mesJ :: resto, j, idxChegada, est =>
    if (j : ℤ) ≤ idxChegada then
      simularAteChegada P entradas resto (j + 1) idxChegada
        (est + entradas mesJ - P.soC mesJ)
    else est

/-- One iteration of the pass-1 loop (projection.ts:93-134) at index `i`;
`mes = meses[i]` and `resto` is the list of months after it. -/
def pass1Step (P : ProjIn) (mes : String) (resto : List String) (i : ℕ)
    (s : Pass1State) : Pass1State :=
  let sellOut := P.soC mes
  let entradaJaAcumulada := s.entradas mes
  let estProjAntesPedido := s.estAnterior + entradaJaAcumulada - sellOut
  let indiceChegada := calcularIndiceMesChegada mes i P.lt P.meses P.dataReferencia
  let pedido : ℚ :=
    match P.pedidosManuais mes with
    | some v => v
    | none =>
      if indiceChegada = (i : ℤ) then
        max 0 (P.estObjPorMes mes - estProjAntesPedido)
      else
        let estSimulado := simularAteChegada P s.entradas resto (i + 1) indiceChegada
          estProjAntesPedido
        let mesChegada := mesAt P.meses indiceChegada
        max 0 (P.estObjPorMes mesChegada - estSimulado)
  let pedidosFinais1 := atualizar s.pedidosFinais mes pedido
  let entradas1 :=
    if 0 < pedido then
      let mesChegada := mesAt P.meses indiceChegada
      atualizar s.entradas mesChegada (s.entradas mesChegada + pedido)
    else s.entradas
  { pedidosFinais := pedidosFinais1
    entradas := entradas1
    estAnterior := s.estAnterior + entradas1 mes - sellOut }

/-- Pass 1 (projection.ts:93-134) walking the month list with its index. -/
def pass1Go (P : ProjIn) : List String → ℕ → Pass1State → Pass1State
  | [], _, s => s
  | mes :: resto, i, s => pass1Go P resto (i + 1) (pass1Step P mes resto i s)

/-- The pass-1 result on the full horizon. -/
def pass1Final (P : ProjIn) : Pass1State :=
  pass1Go P P.meses 0 ⟨fun _ => 0, fun _ => 0, P.estoqueInicial⟩

/-- The finalized `pedidosFinais` record. -/
def pedidosFinaisFn (P : ProjIn) : String → ℚ := (pass1Final P).pedidosFinais

/-- Pass 2 aggregation of final arrivals (projection.ts:138-147), walking
the month list with its index. -/
def pass2Go (P : ProjIn) : List String → ℕ → (String → ℚ) → (String → ℚ)
  | [], _, ef => ef
  | mes :: resto, i, ef =>
    pass2Go P resto (i + 1)
      (if 0 < pedidosFinaisFn P mes then
        let mesChegada := mesAt P.meses (calcularIndiceMesChegada mes i P.lt P.meses P.dataReferencia)
        atualizar ef mesChegada (ef mesChegada + pedidosFinaisFn P mes)
      else ef)

/-- The finalized `entradasFinais` record. -/
def entradasFinaisFn (P : ProjIn) : String → ℚ := pass2Go P P.meses 0 (fun _ => 0)

/-- The emission loop (projection.ts:149-166): accumulate the exact final
projection and snapshot each month's rounded record. -/
def emitGo (P : ProjIn) : List String → ℚ → (String → Option MesData) →
    (String → Option MesData)
  | [], _, acc => acc
  | mes :: resto, estFinal, acc =>
    let sellOut := P.soC mes
    let entradaMes := entradasFinaisFn P mes
    let estFinal1 := estFinal + entradaMes - sellOut
    emitGo P resto estFinal1
      (fun k =>
        if k = mes then
          some { SELL_OUT := jsRound sellOut
                 ESTOQUE_PROJETADO := jsRound estFinal1
                 ESTOQUE_OBJETIVO := jsRound (P.estObjPorMes mes)
                 PEDIDO := jsRound (pedidosFinaisFn P mes)
                 ENTRADA := jsRound entradaMes }
        else acc k)

/-- Assembled `recalcularProjecaoSKU` over a `ProjIn`. -/
def recalcAux (P : ProjIn) : String → Option MesData :=
  emitGo P P.meses P.estoqueInicial (fun _ => none)

/-- Bundle the raw inputs of `recalcularProjecaoSKU` (applying the demand
guard, see `ProjIn.soC`). -/
def projInOf (cadastro : SKUCadastro) (meses : List String)
    (sellOutPorMes : String → JSNum) (pedidosManuais : String → Option ℚ)
    (dataReferencia : Option (ℤ × ℤ × ℤ)) : ProjIn :=
  ⟨cadastro, meses, fun m => jsNumOr0 (sellOutPorMes m), pedidosManuais, dataReferencia⟩

/-- Source `recalcularProjecaoSKU` (projection.ts:45).  `pedidosOriginais` is the
unused `_pedidosOriginais` parameter of the source. -/
def recalcularProjecaoSKU (cadastro : SKUCadastro) (meses : List String)
    (sellOutPorMes : String → JSNum) (pedidosManuais : String → Option ℚ)
    (_pedidosOriginais : String → ℚ) (dataReferencia : Option (ℤ × ℤ × ℤ)) :
    String → Option MesData :=
  recalcAux (projInOf cadastro meses sellOutPorMes pedidosManuais dataReferencia)

/-- The exact (pre-rounding) final projected-stock sequence:
`estExactAt P m` is the value of `estFinal` after the first `m` emission
steps, i.e. the exact projected stock at the end of month `m - 1`. -/
def estExactAt (P : ProjIn) : ℕ → ℚ
  | 0 => P.estoqueInicial
  | m + 1 =>
    estExactAt P m + entradasFinaisFn P (P.meses.getD m "")
      - P.soC (P.meses.getD m "")

/-! ## Status classifier (projection.ts:174) -/

/-- The three SKU health levels. -/
inductive Status where
  | ok
  | warning
  | critical
deriving DecidableEq

/-- The flag-accumulating `forEach` of `getStatusSKU`
(projection.ts:178-188), over index-month pairs. -/
def statusFlags (projecao : String → Option MesData) :
    List (ℕ × String) → Bool × Bool → Bool × Bool
  | [], fl => fl
  | (i, mes) :: resto, fl =>
    statusFlags projecao resto
      (if i = 0 then fl
       else
        match projecao mes with
        | none => fl
        | some data =>
          if data.ESTOQUE_PROJETADO < 0 then (true, fl.2)
          else if (data.ESTOQUE_PROJETADO : ℚ) < (data.ESTOQUE_OBJETIVO : ℚ) * (4 / 5) then
            (fl.1, true)
          else fl)

/-- Source `getStatusSKU` (projection.ts:174).  The literal `0.8` is the binary64
double nearest to 4/5; for integer operands the comparison
`EP < EO * 0.8` decides identically to the exact `EP < EO * (4/5)`
(the product of an integer with that double rounds back to the integer
multiple of 4/5 whenever the latter is an integer, and is otherwise at
distance ≥ 1/5 − ε from every integer). -/
def getStatusSKU (projecao : String → Option MesData) (meses : List String) : Status :=
  let fl := statusFlags projecao meses.enum (false, false)
  if fl.1 then .critical else if fl.2 then .warning else .ok

/-! ## Coverage (anticipation) calculator (core/coverage.ts) -/

/-- The current-month day-consumption loop (coverage.ts:68-74): walk the
week blocks accumulating `min(sem.dias, diasParaConsumir)` until the budget
is exhausted. -/
def consumirDiasPull : List SemanaInfo → ℤ × ℤ → ℤ × ℤ
  | [], st => st
  | sem :: resto, st =>
    if st.2 ≤ 0 then (st.1, st.2)
    else
      let consumed := min sem.dias st.2
      consumirDiasPull resto (st.1 + consumed, st.2 - consumed)

/-- State of the future-month block-consumption loop (coverage.ts:94-109). -/
structure ConsumoSemanas where
  diasRestantes : ℤ
  diasAntecipados : ℤ
  valorAntecipado : ℚ

/-- The block-consumption loop (coverage.ts:97-109) over (block, weekValue)
pairs: a block fitting in the remaining day budget contributes its whole
distributed value; a partially fitting block contributes the rounded
proportion; the loop stops once the budget is exhausted. -/
def consumirSemanas : List (SemanaInfo × ℚ) → ConsumoSemanas → ConsumoSemanas
  | [], st => st
  | (sem, w) :: resto, st =>
    if st.diasRestantes ≤ 0 then consumirSemanas resto st
    else if sem.dias ≤ st.diasRestantes then
      consumirSemanas resto
        ⟨st.diasRestantes - sem.dias, st.diasAntecipados + sem.dias, st.valorAntecipado + w⟩
    else
      let proporcao : ℚ := (st.diasRestantes : ℚ) / (sem.dias : ℚ)
      consumirSemanas resto
        ⟨0, st.diasAntecipados + st.diasRestantes,
         st.valorAntecipado + (jsRound (w * proporcao) : ℚ)⟩

/-- State of the future-month loop (coverage.ts:82-124). -/
structure CoberturaLoopState where
  diasRestantes : ℤ
  totalAntecipado : ℚ
  detalheMeses : List DetalheMesCobertura
  mesesAjustados : List MesAjustado

/-- The future-month anticipation loop (coverage.ts:85-123):
`for (i = 1; i < meses.length && diasRestantes > 0; i++)`.  `fuel` bounds
the iteration count by `meses.length`. -/
def coberturaMesesGo (projecaoNormal : String → Option MesData) (meses : List String) :
    ℕ → ℕ → CoberturaLoopState → CoberturaLoopState
  | 0, _, st => st
  | fuel + 1, i, st =>
    if i < meses.length ∧ 0 < st.diasRestantes then
      let mesKeyI := meses.getD i ""
      let am := parseMesAnoZ mesKeyI
      let diasDoMes := diasNoMes am.1 am.2
      let pedidoNormalMes : ℤ := ((projecaoNormal mesKeyI).map (fun d => d.PEDIDO)).getD 0
      let semanasMes := calcularSemanasRestantes am.1 am.2 1
      let weekValues := distribuirPedidoSimples (pedidoNormalMes : ℚ) semanasMes
      let c := consumirSemanas (semanasMes.zip weekValues) ⟨st.diasRestantes, 0, 0⟩
      let valorMantido := (pedidoNormalMes : ℚ) - c.valorAntecipado
      let proporcaoAntecipada := (c.diasAntecipados : ℚ) / (diasDoMes : ℚ)
      let isMesCompleto := diasDoMes ≤ c.diasAntecipados
      coberturaMesesGo projecaoNormal meses fuel (i + 1)
        { diasRestantes := c.diasRestantes
          totalAntecipado := st.totalAntecipado + c.valorAntecipado
          detalheMeses := st.detalheMeses ++
            [⟨mesKeyI, (pedidoNormalMes : ℚ), diasDoMes, c.diasAntecipados,
              if isMesCompleto then 1 else proporcaoAntecipada,
              c.valorAntecipado, valorMantido⟩]
          mesesAjustados := st.mesesAjustados ++
            [⟨mesKeyI, (pedidoNormalMes : ℚ), valorMantido⟩] }
    else st

/-- The guarded future-month loop of coverage.ts:82-124: run only when
there are days to anticipate, else the state stays at zero anticipation. -/
def coberturaLoop (projecaoNormal : String → Option MesData) (meses : List String)
    (diasParaAntecipar : ℤ) : CoberturaLoopState :=
  if 0 < diasParaAntecipar then
    coberturaMesesGo projecaoNormal meses meses.length 1 ⟨diasParaAntecipar, 0, [], []⟩
  else ⟨diasParaAntecipar, 0, [], []⟩

/-- Source `calcularCoberturaPorData` (coverage.ts:9).  The two `Date` arguments are
modelled by their UTC day numbers (the source normalises both to UTC
midnight of their civil date before any use); the reference-date string
rebuilt at coverage.ts:28 and re-parsed inside the projection is modelled by
the corresponding `(year, month, day)` triple. -/
def calcularCoberturaPorData (cadastro : SKUCadastro) (meses : List String)
    (sellOutPorMes : String → JSNum) (dataCobertura dataReferencia : ℤ) :
    CoberturaResultado :=
  let coberturaUTC := dataCobertura
  let refUTC := dataReferencia
  let refCivil := civilFromDays refUTC
  let projecaoNormal :=
    recalcularProjecaoSKU cadastro meses sellOutPorMes (fun _ => none) (fun _ => 0)
      (some refCivil)
  let mesAtual := parseMesAnoZ (meses.headD "")
  let diasDoMesAtual := diasNoMes mesAtual.1 mesAtual.2
  let diaReferencia := refCivil.2.2
  let diasRestantesMesAtual := diasDoMesAtual - diaReferencia
  let diasCobertos := coberturaUTC - refUTC
  let pedidoNormalMes1 : ℤ := ((projecaoNormal (meses.headD "")).map (fun d => d.PEDIDO)).getD 0
  let cobCivil := civilFromDays coberturaUTC
  let coberturaNoMesAtual := cobCivil.1 = mesAtual.1 ∧ cobCivil.2.1 = mesAtual.2
  let diasConsumidosNoMesAtual : ℤ :=
    if coberturaNoMesAtual then
      let diaInicioPull := cobCivil.2.2 + 1
      if diaInicioPull ≤ diasDoMesAtual then
        (consumirDiasPull (calcularSemanasRestantes mesAtual.1 mesAtual.2 diaInicioPull)
          (0, diasCobertos)).1
      else 0
    else diasRestantesMesAtual
  let diasParaAntecipar := max 0 (diasCobertos - diasConsumidosNoMesAtual)
  let loopRes := coberturaLoop projecaoNormal meses diasParaAntecipar
  let pedidoCobertura := (pedidoNormalMes1 : ℚ) + loopRes.totalAntecipado
  { chave := cadastro.CHAVE
    nome := cadastro.nomeProduto
    cd := cadastro.codigo_deposito_pd
    fornecedor := cadastro.fornecedorComercial
    pedidoCobertura := pedidoCobertura
    pedidoNormalMes1 := (pedidoNormalMes1 : ℚ)
    totalAntecipado := loopRes.totalAntecipado
    estoqueAtual := cadastro.ESTOQUE
    lt := cadastro.LT
    diasCobertos := diasCobertos
    diasRestantesMesAtual := diasRestantesMesAtual
    detalheMeses := loopRes.detalheMeses
    mesesAjustados := loopRes.mesesAjustados
    intraMes := none }

/-! ## Auxiliary and specification-side definitions used by the theorems -/

/-- Exact `estFinal` after `n` further emission steps along the month-list
suffix `l`, starting from `est` — the list-indexed form of `estExactAt`. -/
def estParcial (P : ProjIn) : List String → ℚ → ℕ → ℚ
  | _, est, 0 => est
  | [], est, _ + 1 => est
  | mes :: resto, est, n + 1 =>
    estParcial P resto (est + entradasFinaisFn P mes - P.soC mes) n

/-- Specification-side (C8): the claim's month-key format — exactly a
4-digit year, an underscore, and a 2-digit month. -/
def specFormatoMesAno (s : String) : Bool :=
  match s.data with
  | [y1, y2, y3, y4, u, m1, m2] =>
    y1.isDigit && y2.isDigit && y3.isDigit && y4.isDigit && u = '_' && m1.isDigit && m2.isDigit
  | _ => false

/-- Specification-side (C7): some month other than month 0 has a record and
satisfies `p`. -/
def algumMesExaminado (projecao : String → Option MesData) :
    List (ℕ × String) → (MesData → Bool) → Bool
  | [], _ => false
  | im :: resto, p =>
    (im.1 != 0 && ((projecao im.2).map p).getD false) || algumMesExaminado projecao resto p

/-- Specification-side (C7): the claim's classifier, literally — `critical`
if any examined month's projected stock is negative, else `warning` if any
examined month's projected stock is below 80% of that month's objective,
else `ok`. -/
def specClassificaStatus (projecao : String → Option MesData) (meses : List String) : Status :=
  if algumMesExaminado projecao meses.enum (fun d => d.ESTOQUE_PROJETADO < 0) then .critical
  else if algumMesExaminado projecao meses.enum
      (fun d => (d.ESTOQUE_PROJETADO : ℚ) < (d.ESTOQUE_OBJETIVO : ℚ) * (4 / 5)) then .warning
  else .ok

/-- A registry entry with every numeric field 0. -/
def cadVazio : SKUCadastro := ⟨"", "", "", 0, 0, "", "", "", 0, 0, 0, 0, 0, 0, 0, 0⟩

/-- C1 counterexample entry: frequency 1 review day, everything else 0. -/
def cadConservacao : SKUCadastro := ⟨"", "", "", 0, 0, "", "", "", 0, 0, 0, 0, 1, 0, 0, 0⟩

/-- C1 counterexample horizon. -/
def mesesConservacao : List String := ["2025_01", "2025_02"]

/-- C1 counterexample demand: 10 in January, 17 in February (integers). -/
def soConservacao : String → JSNum := fun m =>
  if m = "2025_01" then some 10 else if m = "2025_02" then some 17 else none

/-- One-month horizon used by several concrete instances. -/
def mesesUmMes : List String := ["2025_01"]

/-- Demand of 30 in 2025-01. -/
def soTrinta : String → JSNum := fun m => if m = "2025_01" then some 30 else none

/-- C5 scenario-1 registry entry: on-hand 100, lead time 0, frequency 0,
safety 0, impact 0. -/
def cadCenario1 : SKUCadastro := ⟨"", "", "", 0, 0, "", "", "", 100, 0, 0, 0, 0, 0, 0, 0⟩

/-- C5 scenario-1 horizon: 3 months. -/
def mesesCenario1 : List String := ["2025_01", "2025_02", "2025_03"]

/-- C5 scenario-1 demand: uniform 30 per month. -/
def soCenario1 : String → JSNum := fun m =>
  if m = "2025_01" then some 30 else if m = "2025_02" then some 30 else
  if m = "2025_03" then some 30 else none

/-- C3 witness registry entry: on-hand 5. -/
def cadCobertura : SKUCadastro := ⟨"", "", "", 0, 0, "", "", "", 5, 0, 0, 0, 0, 0, 0, 0⟩

/-- C3 witness horizon. -/
def mesesCobertura : List String := ["2025_02", "2025_03"]

/-- C3 witness demand. -/
def soCobertura : String → JSNum := fun m =>
  if m = "2025_02" then some 28 else if m = "2025_03" then some 31 else none

/-! # Theorems -/

/-! ## Rounding facts -/

theorem jsRound_nonneg {q : ℚ} (h : 0 ≤ q) : 0 ≤ jsRound q :=
  Int.le_floor.mpr (by push_cast; linarith)

theorem jsRound_intCast (z : ℤ) : jsRound (z : ℚ) = z := by
  unfold jsRound
  rw [Int.floor_int_add]
  norm_num

theorem jsRound_mono {a b : ℚ} (h : a ≤ b) : jsRound a ≤ jsRound b :=
  Int.floor_le_floor (by linarith)

/-! ## Emission-loop facts -/

theorem emitGo_not_mem (P : ProjIn) (k : String) :
    ∀ (l : List String) (est : ℚ) (acc : String → Option MesData),
      k ∉ l → emitGo P l est acc k = acc k := by
  intro l
  induction l with
  | nil => intro est acc _; rfl
  | cons mes resto ih =>
    intro est acc hk
    rw [List.mem_cons] at hk
    push_neg at hk
    obtain ⟨hk1, hk2⟩ := hk
    simp only [emitGo]
    rw [ih _ _ hk2]
    simp [hk1]

theorem emitGo_PEDIDO (P : ProjIn) :
    ∀ (l : List String) (est : ℚ) (acc : String → Option MesData) (k : String) (d : MesData),
      (∀ k' d', acc k' = some d' → d'.PEDIDO = jsRound (pedidosFinaisFn P k')) →
      emitGo P l est acc k = some d → d.PEDIDO = jsRound (pedidosFinaisFn P k) := by
  intro l
  induction l with
  | nil => intro est acc k d hacc h; exact hacc k d h
  | cons mes resto ih =>
    intro est acc k d hacc h
    simp only [emitGo] at h
    refine ih _ _ k d ?_ h
    intro k' d' h'
    by_cases hk : k' = mes
    · subst hk
      rw [if_pos rfl] at h'
      cases h'
      rfl
    · simp only [if_neg hk] at h'
      exact hacc k' d' h'

theorem recalcAux_PEDIDO {P : ProjIn} {k : String} {d : MesData}
    (h : recalcAux P k = some d) : d.PEDIDO = jsRound (pedidosFinaisFn P k) :=
  emitGo_PEDIDO P P.meses P.estoqueInicial _ k d (fun k' d' h' => by cases h') h

theorem recalcAux_mem {P : ProjIn} {k : String} {d : MesData}
    (h : recalcAux P k = some d) : k ∈ P.meses := by
  by_contra hk
  unfold recalcAux at h
  rw [emitGo_not_mem P k _ _ _ hk] at h
  cases h

/-! ## Pass-1 facts -/

theorem pass1Go_pf_not_mem (P : ProjIn) (k : String) :
    ∀ (l : List String) (i : ℕ) (s : Pass1State),
      k ∉ l → (pass1Go P l i s).pedidosFinais k = s.pedidosFinais k := by
  intro l
  induction l with
  | nil => intros; rfl
  | cons mes resto ih =>
    intro i s hk
    rw [List.mem_cons] at hk
    push_neg at hk
    obtain ⟨hk1, hk2⟩ := hk
    simp only [pass1Go]
    rw [ih _ _ hk2]
    simp [pass1Step, atualizar, hk1]

theorem pass1Go_pf_override (P : ProjIn) (k : String) (v : ℚ)
    (hov : P.pedidosManuais k = some v) :
    ∀ (l : List String) (i : ℕ) (s : Pass1State),
      k ∈ l → (pass1Go P l i s).pedidosFinais k = v := by
  intro l
  induction l with
  | nil => intro i s h; cases h
  | cons mes resto ih =>
    intro i s hmem
    by_cases hr : k ∈ resto
    · exact ih _ _ hr
    · have hk : k = mes := by
        rcases List.mem_cons.mp hmem with h | h
        · exact h
        · exact absurd h hr
      subst hk
      simp only [pass1Go]
      rw [pass1Go_pf_not_mem P k resto _ _ hr]
      simp [pass1Step, atualizar, hov]

theorem pass1Go_pf_nonneg (P : ProjIn) (k : String) (hov : P.pedidosManuais k = none) :
    ∀ (l : List String) (i : ℕ) (s : Pass1State),
      0 ≤ s.pedidosFinais k → 0 ≤ (pass1Go P l i s).pedidosFinais k := by
  intro l
  induction l with
  | nil => intro i s h; exact h
  | cons mes resto ih =>
    intro i s h
    simp only [pass1Go]
    refine ih _ _ ?_
    by_cases hk : k = mes
    · subst hk
      simp only [pass1Step, atualizar, hov]
      split
      · split
        · exact le_sup_left
        · exact le_sup_left
      · exact h
    · simp only [pass1Step, atualizar, if_neg hk]
      exact h

theorem pedidosFinaisFn_nonneg (P : ProjIn) (k : String)
    (hov : P.pedidosManuais k = none) : 0 ≤ pedidosFinaisFn P k :=
  pass1Go_pf_nonneg P k hov P.meses 0 _ le_rfl

/-! ## The exact projection sequence and indexed emission lookup -/

theorem estParcial_zero (P : ProjIn) : ∀ (l : List String) (est : ℚ),
    estParcial P l est 0 = est := by
  intro l est
  cases l <;> rfl

theorem estParcial_succ (P : ProjIn) :
    ∀ (l : List String) (est : ℚ) (n : ℕ), n < l.length →
      estParcial P l est (n + 1)
        = estParcial P l est n + entradasFinaisFn P (l.getD n "") - P.soC (l.getD n "") := by
  intro l
  induction l with
  | nil => intro est n h; simp at h
  | cons mes resto ih =>
    intro est n h
    cases n with
    | zero => simp [estParcial]
    | succ n =>
      have hn : n < resto.length := by simpa using h
      simp only [estParcial, List.getD_cons_succ]
      exact ih _ n hn

theorem estExactAt_eq_estParcial (P : ProjIn) :
    ∀ n, n ≤ P.meses.length → estExactAt P n = estParcial P P.meses P.estoqueInicial n := by
  intro n
  induction n with
  | zero => intro _; rw [estParcial_zero]; rfl
  | succ n ih =>
    intro h
    have hn : n < P.meses.length := h
    rw [estExactAt, ih (le_of_lt hn), estParcial_succ P _ _ n hn]

theorem emitGo_lookup (P : ProjIn) :
    ∀ (l : List String) (est : ℚ) (acc : String → Option MesData) (n : ℕ),
      l.Nodup → n < l.length →
      emitGo P l est acc (l.getD n "")
        = some { SELL_OUT := jsRound (P.soC (l.getD n ""))
                 ESTOQUE_PROJETADO := jsRound (estParcial P l est (n + 1))
                 ESTOQUE_OBJETIVO := jsRound (P.estObjPorMes (l.getD n ""))
                 PEDIDO := jsRound (pedidosFinaisFn P (l.getD n ""))
                 ENTRADA := jsRound (entradasFinaisFn P (l.getD n "")) } := by
  intro l
  induction l with
  | nil => intro est acc n _ hn; simp at hn
  | cons mes resto ih =>
    intro est acc n hnd hn
    have hmes : mes ∉ resto := (List.nodup_cons.mp hnd).1
    have hnd2 : resto.Nodup := (List.nodup_cons.mp hnd).2
    cases n with
    | zero =>
      simp only [List.getD_cons_zero, emitGo]
      rw [emitGo_not_mem P mes resto _ _ hmes]
      simp [estParcial]
    | succ n =>
      have hn2 : n < resto.length := by simpa using hn
      simp only [List.getD_cons_succ, emitGo]
      rw [ih _ _ n hnd2 hn2]
      simp [estParcial]

/-- C1 (amended): the emitted `ESTOQUE_PROJETADO`, `ENTRADA` and `SELL_OUT`
are the integer roundings of an exact pre-rounding sequence that satisfies
the conservation identity `est[m] = est[m-1] + entrada[m] - sellOut[m]`
with `est[-1]` the derived initial stock; conservation holds exactly at
that level (the identity over the emitted rounded integers themselves can
fail, see the counterexample). -/
theorem conservacao_estoque_exata (cadastro : SKUCadastro) (meses : List String)
    (sellOutPorMes : String → JSNum) (pedidosManuais : String → Option ℚ)
    (pedidosOriginais : String → ℚ) (dataReferencia : Option (ℤ × ℤ × ℤ))
    (hnd : meses.Nodup) (m : ℕ) (hm : m < meses.length) :
    ∃ P : ProjIn, P = projInOf cadastro meses sellOutPorMes pedidosManuais dataReferencia ∧
      recalcularProjecaoSKU cadastro meses sellOutPorMes pedidosManuais pedidosOriginais
          dataReferencia (meses.getD m "")
        = some { SELL_OUT := jsRound (P.soC (meses.getD m ""))
                 ESTOQUE_PROJETADO := jsRound (estExactAt P (m + 1))
                 ESTOQUE_OBJETIVO := jsRound (P.estObjPorMes (meses.getD m ""))
                 PEDIDO := jsRound (pedidosFinaisFn P (meses.getD m ""))
                 ENTRADA := jsRound (entradasFinaisFn P (meses.getD m "")) } ∧
      estExactAt P (m + 1)
        = estExactAt P m + entradasFinaisFn P (meses.getD m "") - P.soC (meses.getD m "") ∧
      estExactAt P 0 = P.estoqueInicial := by
  refine ⟨projInOf cadastro meses sellOutPorMes pedidosManuais dataReferencia, rfl, ?_, ?_, rfl⟩
  · have h := emitGo_lookup (projInOf cadastro meses sellOutPorMes pedidosManuais dataReferencia)
      meses ((projInOf cadastro meses sellOutPorMes pedidosManuais dataReferencia).estoqueInicial)
      (fun _ => none) m hnd hm
    have h2 := estExactAt_eq_estParcial
      (projInOf cadastro meses sellOutPorMes pedidosManuais dataReferencia) (m + 1) hm
    rw [h2]
    exact h
  · rfl

theorem conservacao_estoque_exata_wit :
    mesesConservacao.Nodup ∧ 0 < mesesConservacao.length ∧
    (∃ P : ProjIn,
      P = projInOf cadConservacao mesesConservacao soConservacao (fun _ => none) none ∧
      recalcularProjecaoSKU cadConservacao mesesConservacao soConservacao (fun _ => none)
          (fun _ => 0) none (mesesConservacao.getD 0 "")
        = some { SELL_OUT := jsRound (P.soC (mesesConservacao.getD 0 ""))
                 ESTOQUE_PROJETADO := jsRound (estExactAt P (0 + 1))
                 ESTOQUE_OBJETIVO := jsRound (P.estObjPorMes (mesesConservacao.getD 0 ""))
                 PEDIDO := jsRound (pedidosFinaisFn P (mesesConservacao.getD 0 ""))
                 ENTRADA := jsRound (entradasFinaisFn P (mesesConservacao.getD 0 "")) } ∧
      estExactAt P (0 + 1)
        = estExactAt P 0 + entradasFinaisFn P (mesesConservacao.getD 0 "")
          - P.soC (mesesConservacao.getD 0 "") ∧
      estExactAt P 0 = P.estoqueInicial) :=
  ⟨by decide, by decide,
    conservacao_estoque_exata cadConservacao mesesConservacao soConservacao (fun _ => none)
      (fun _ => 0) none (by decide) 0 (by decide)⟩

/-- C1 (counterexample): on a 2-month horizon with integer demands 10 and 17
and a 1-day review frequency, the emitted rounded values violate the claimed
identity at month 2: `ESTOQUE_PROJETADO = 1` but
`ESTOQUE_PROJETADO[m-1] + ENTRADA - SELL_OUT = 0 + 17 - 17 = 0`. -/
theorem conservacao_arredondada_cex :
    recalcularProjecaoSKU cadConservacao mesesConservacao soConservacao (fun _ => none)
        (fun _ => 0) none "2025_01" = some ⟨10, 0, 0, 10, 10⟩ ∧
    recalcularProjecaoSKU cadConservacao mesesConservacao soConservacao (fun _ => none)
        (fun _ => 0) none "2025_02" = some ⟨17, 1, 1, 17, 17⟩ ∧
    ¬ ((1 : ℤ) = 0 + 17 - 17) := by
  have i0 : calcularIndiceMesChegada "2025_01" 0 0 ["2025_01", "2025_02"] none = 0 := by decide
  have i1 : calcularIndiceMesChegada "2025_02" 1 0 ["2025_01", "2025_02"] none = 1 := by decide
  have p1 : parseMesAnoZ "2025_01" = (2025, 1) := by decide
  have p2 : parseMesAnoZ "2025_02" = (2025, 2) := by decide
  have d1 : diasNoMes 2025 1 = 31 := by decide
  have d2 : diasNoMes 2025 2 = 28 := by decide
  have m0 : mesAt ["2025_01", "2025_02"] 0 = "2025_01" := by decide
  have m1 : mesAt ["2025_01", "2025_02"] 1 = "2025_02" := by decide
  have s1 : (("2025_01" : String) = "2025_02") = False := by simp
  have s2 : (("2025_02" : String) = "2025_01") = False := by simp
  refine ⟨?_, ?_, by decide⟩
  · norm_num [recalcularProjecaoSKU, projInOf, recalcAux, emitGo, entradasFinaisFn, pass2Go,
      pedidosFinaisFn, pass1Final, pass1Go, pass1Step, simularAteChegada, atualizar,
      ProjIn.estObjPorMes, ProjIn.estoqueInicial, ProjIn.lt, jsNumOr0, jsRound,
      mesesConservacao, cadConservacao, soConservacao, i0, i1, p1, p2, d1, d2, m0, m1,
      s1, s2, max_def]
  · norm_num [recalcularProjecaoSKU, projInOf, recalcAux, emitGo, entradasFinaisFn, pass2Go,
      pedidosFinaisFn, pass1Final, pass1Go, pass1Step, simularAteChegada, atualizar,
      ProjIn.estObjPorMes, ProjIn.estoqueInicial, ProjIn.lt, jsNumOr0, jsRound,
      mesesConservacao, cadConservacao, soConservacao, i0, i1, p1, p2, d1, d2, m0, m1,
      s1, s2, max_def]

/-- C2 (amended): for every (SKU, month) pair with a non-null numeric manual
override `v`, the emitted `PEDIDO` is `Math.round v` — so it equals `v`
exactly whenever `v` is an integer (including `v = 0`), and is never
re-validated against objective stock; for a non-integer `v` the emitted
value is its rounding, not `v` itself (see the counterexample). -/
theorem pedido_manual_round (cadastro : SKUCadastro) (meses : List String)
    (sellOutPorMes : String → JSNum) (pedidosManuais : String → Option ℚ)
    (pedidosOriginais : String → ℚ) (dataReferencia : Option (ℤ × ℤ × ℤ))
    (k : String) (v : ℚ) (d : MesData)
    (hov : pedidosManuais k = some v)
    (hd : recalcularProjecaoSKU cadastro meses sellOutPorMes pedidosManuais pedidosOriginais
      dataReferencia k = some d) :
    d.PEDIDO = jsRound v ∧ ∀ z : ℤ, v = (z : ℚ) → d.PEDIDO = z := by
  have hd' : recalcAux (projInOf cadastro meses sellOutPorMes pedidosManuais dataReferencia) k
      = some d := hd
  have h1 := recalcAux_PEDIDO hd'
  have h2 := recalcAux_mem hd'
  have h3 : pedidosFinaisFn (projInOf cadastro meses sellOutPorMes pedidosManuais dataReferencia) k
      = v :=
    pass1Go_pf_override _ k v hov _ 0 _ h2
  rw [h3] at h1
  exact ⟨h1, fun z hz => by rw [h1, hz, jsRound_intCast]⟩

/-- C2 (counterexample): with the explicit numeric override `v = 2/5` on the
only month, the emitted `PEDIDO` is `0 = Math.round(2/5)`, not `2/5`: the
claim's "equals v exactly" fails for non-integer overrides. -/
theorem pedido_manual_exato_cex :
    recalcularProjecaoSKU cadVazio mesesUmMes (fun _ => none)
        (fun m => if m = "2025_01" then some (2 / 5 : ℚ) else none) (fun _ => 0) none "2025_01"
      = some ⟨0, 0, 0, 0, 0⟩ ∧
    ¬ (((0 : ℤ) : ℚ) = 2 / 5) := by
  have i0 : calcularIndiceMesChegada "2025_01" 0 0 ["2025_01"] none = 0 := by decide
  have p1 : parseMesAnoZ "2025_01" = (2025, 1) := by decide
  have d1 : diasNoMes 2025 1 = 31 := by decide
  have m0 : mesAt ["2025_01"] 0 = "2025_01" := by decide
  refine ⟨?_, by norm_num⟩
  norm_num [recalcularProjecaoSKU, projInOf, recalcAux, emitGo, entradasFinaisFn, pass2Go,
    pedidosFinaisFn, pass1Final, pass1Go, pass1Step, simularAteChegada, atualizar,
    ProjIn.estObjPorMes, ProjIn.estoqueInicial, ProjIn.lt, jsNumOr0, jsRound,
    mesesUmMes, cadVazio, i0, p1, d1, m0, max_def]

theorem pedido_manual_round_wit :
    (fun m => if m = "2025_01" then some (7 : ℚ) else none) "2025_01" = some 7 ∧
    recalcularProjecaoSKU cadVazio mesesUmMes (fun _ => none)
        (fun m => if m = "2025_01" then some (7 : ℚ) else none) (fun _ => 0) none "2025_01"
      = some ⟨0, 7, 0, 7, 7⟩ ∧
    (⟨0, 7, 0, 7, 7⟩ : MesData).PEDIDO = (7 : ℤ) := by
  have i0 : calcularIndiceMesChegada "2025_01" 0 0 ["2025_01"] none = 0 := by decide
  have p1 : parseMesAnoZ "2025_01" = (2025, 1) := by decide
  have d1 : diasNoMes 2025 1 = 31 := by decide
  have hd : recalcularProjecaoSKU cadVazio mesesUmMes (fun _ => none)
      (fun m => if m = "2025_01" then some (7 : ℚ) else none) (fun _ => 0) none "2025_01"
      = some ⟨0, 7, 0, 7, 7⟩ := by
    have m0 : mesAt ["2025_01"] 0 = "2025_01" := by decide
    norm_num [recalcularProjecaoSKU, projInOf, recalcAux, emitGo, entradasFinaisFn, pass2Go,
      pedidosFinaisFn, pass1Final, pass1Go, pass1Step, simularAteChegada, atualizar,
      ProjIn.estObjPorMes, ProjIn.estoqueInicial, ProjIn.lt, jsNumOr0, jsRound,
      mesesUmMes, cadVazio, i0, p1, d1, m0, max_def]
  refine ⟨rfl, hd, ?_⟩
  exact (pedido_manual_round cadVazio mesesUmMes (fun _ => none)
    (fun m => if m = "2025_01" then some (7 : ℚ) else none) (fun _ => 0) none "2025_01" 7
    ⟨0, 7, 0, 7, 7⟩ rfl hd).2 7 (by norm_num)

/-- C6: for every input and every month key whose manual override is
null/absent, the emitted `PEDIDO` is non-negative (orders are floored at
zero by `Math.max(0, _)` before rounding). -/
theorem pedido_nao_negativo (cadastro : SKUCadastro) (meses : List String)
    (sellOutPorMes : String → JSNum) (pedidosManuais : String → Option ℚ)
    (pedidosOriginais : String → ℚ) (dataReferencia : Option (ℤ × ℤ × ℤ))
    (k : String) (d : MesData)
    (hov : pedidosManuais k = none)
    (hd : recalcularProjecaoSKU cadastro meses sellOutPorMes pedidosManuais pedidosOriginais
      dataReferencia k = some d) :
    0 ≤ d.PEDIDO := by
  have hd' : recalcAux (projInOf cadastro meses sellOutPorMes pedidosManuais dataReferencia) k
      = some d := hd
  rw [recalcAux_PEDIDO hd']
  exact jsRound_nonneg (pedidosFinaisFn_nonneg _ k hov)

theorem pedido_nao_negativo_wit :
    (fun _ => (none : Option ℚ)) "2025_01" = none ∧
    recalcularProjecaoSKU cadVazio mesesUmMes soTrinta (fun _ => none) (fun _ => 0) none
      "2025_01" = some ⟨30, 0, 0, 30, 30⟩ ∧
    0 ≤ (⟨30, 0, 0, 30, 30⟩ : MesData).PEDIDO := by
  have i0 : calcularIndiceMesChegada "2025_01" 0 0 ["2025_01"] none = 0 := by decide
  have p1 : parseMesAnoZ "2025_01" = (2025, 1) := by decide
  have d1 : diasNoMes 2025 1 = 31 := by decide
  have hd : recalcularProjecaoSKU cadVazio mesesUmMes soTrinta (fun _ => none) (fun _ => 0) none
      "2025_01" = some ⟨30, 0, 0, 30, 30⟩ := by
    have m0 : mesAt ["2025_01"] 0 = "2025_01" := by decide
    norm_num [recalcularProjecaoSKU, projInOf, recalcAux, emitGo, entradasFinaisFn, pass2Go,
      pedidosFinaisFn, pass1Final, pass1Go, pass1Step, simularAteChegada, atualizar,
      ProjIn.estObjPorMes, ProjIn.estoqueInicial, ProjIn.lt, jsNumOr0, jsRound,
      mesesUmMes, cadVazio, soTrinta, i0, p1, d1, m0, max_def]
  exact ⟨rfl, hd, pedido_nao_negativo cadVazio mesesUmMes soTrinta (fun _ => none) (fun _ => 0)
    none "2025_01" _ rfl hd⟩

/-- C9: a month whose demand-map entry is missing / non-numeric / `NaN`
(`none`) is treated exactly as demand 0 everywhere — replacing the entry by
an explicit numeric 0 leaves the whole output unchanged; the computation is
total (no exception path exists in the model or the source). -/
theorem demanda_invalida_zero (cadastro : SKUCadastro) (meses : List String)
    (sellOutPorMes : String → JSNum) (pedidosManuais : String → Option ℚ)
    (pedidosOriginais : String → ℚ) (dataReferencia : Option (ℤ × ℤ × ℤ)) (k : String)
    (hk : sellOutPorMes k = none) :
    recalcularProjecaoSKU cadastro meses sellOutPorMes pedidosManuais pedidosOriginais
        dataReferencia
      = recalcularProjecaoSKU cadastro meses (fun m => if m = k then some 0 else sellOutPorMes m)
        pedidosManuais pedidosOriginais dataReferencia := by
  have h : (fun m => jsNumOr0 (sellOutPorMes m))
      = fun m => jsNumOr0 (if m = k then some 0 else sellOutPorMes m) := by
    funext m
    by_cases hm : m = k
    · simp [hm, hk, jsNumOr0]
    · simp [hm]
  unfold recalcularProjecaoSKU projInOf
  rw [h]

theorem demanda_invalida_zero_wit :
    (fun _ => (none : JSNum)) "2025_01" = none ∧
    recalcularProjecaoSKU cadVazio mesesUmMes (fun _ => none) (fun _ => none) (fun _ => 0) none
      = recalcularProjecaoSKU cadVazio mesesUmMes
        (fun m => if m = "2025_01" then some 0 else none) (fun _ => none) (fun _ => 0) none :=
  ⟨rfl, demanda_invalida_zero cadVazio mesesUmMes (fun _ => none) (fun _ => none) (fun _ => 0)
    none "2025_01" rfl⟩

/-- C5 (counterexample): in the spec's scenario 1 (on-hand 100, uniform
demand 30, lead time 0, frequency 0, safety 0, impact 0) the emitted
`ESTOQUE_OBJETIVO` of month 0 is 0, not the claimed 30: the objective
formula multiplies the daily demand by `lt + frequencia + estSeguranca = 0`. -/
theorem cenario1_objetivo_cex :
    recalcularProjecaoSKU cadCenario1 mesesCenario1 soCenario1 (fun _ => none) (fun _ => 0) none
      "2025_01" = some ⟨30, 70, 0, 0, 0⟩ ∧
    ¬ ((0 : ℤ) = 30) := by
  have i0 : calcularIndiceMesChegada "2025_01" 0 0 ["2025_01", "2025_02", "2025_03"] none = 0 := by
    decide
  have i1 : calcularIndiceMesChegada "2025_02" 1 0 ["2025_01", "2025_02", "2025_03"] none = 1 := by
    decide
  have i2 : calcularIndiceMesChegada "2025_03" 2 0 ["2025_01", "2025_02", "2025_03"] none = 2 := by
    decide
  have p1 : parseMesAnoZ "2025_01" = (2025, 1) := by decide
  have p2 : parseMesAnoZ "2025_02" = (2025, 2) := by decide
  have p3 : parseMesAnoZ "2025_03" = (2025, 3) := by decide
  have d1 : diasNoMes 2025 1 = 31 := by decide
  have d2 : diasNoMes 2025 2 = 28 := by decide
  have d3 : diasNoMes 2025 3 = 31 := by decide
  refine ⟨?_, by decide⟩
  norm_num [recalcularProjecaoSKU, projInOf, recalcAux, emitGo, entradasFinaisFn, pass2Go,
    pedidosFinaisFn, pass1Final, pass1Go, pass1Step, simularAteChegada, atualizar,
    ProjIn.estObjPorMes, ProjIn.estoqueInicial, ProjIn.lt, jsNumOr0, jsRound,
    mesesCenario1, cadCenario1, soCenario1, i0, i1, i2, p1, p2, p3, d1, d2, d3, max_def]
  try decide

/-- C5 (amended): scenario 1 (on-hand 100, uniform demand 30/month, lead
time 0, frequency 0, safety 0, impact 0, 3 months) yields
`ESTOQUE_OBJETIVO = 0` for every month (the formula's multiplier
`lt + frequencia + estSeguranca` is 0), all orders 0, all arrivals 0, and
projected stock `[70, 40, 10]`. -/
theorem cenario1_series :
    recalcularProjecaoSKU cadCenario1 mesesCenario1 soCenario1 (fun _ => none) (fun _ => 0) none
      "2025_01" = some ⟨30, 70, 0, 0, 0⟩ ∧
    recalcularProjecaoSKU cadCenario1 mesesCenario1 soCenario1 (fun _ => none) (fun _ => 0) none
      "2025_02" = some ⟨30, 40, 0, 0, 0⟩ ∧
    recalcularProjecaoSKU cadCenario1 mesesCenario1 soCenario1 (fun _ => none) (fun _ => 0) none
      "2025_03" = some ⟨30, 10, 0, 0, 0⟩ := by
  have i0 : calcularIndiceMesChegada "2025_01" 0 0 ["2025_01", "2025_02", "2025_03"] none = 0 := by
    decide
  have i1 : calcularIndiceMesChegada "2025_02" 1 0 ["2025_01", "2025_02", "2025_03"] none = 1 := by
    decide
  have i2 : calcularIndiceMesChegada "2025_03" 2 0 ["2025_01", "2025_02", "2025_03"] none = 2 := by
    decide
  have p1 : parseMesAnoZ "2025_01" = (2025, 1) := by decide
  have p2 : parseMesAnoZ "2025_02" = (2025, 2) := by decide
  have p3 : parseMesAnoZ "2025_03" = (2025, 3) := by decide
  have d1 : diasNoMes 2025 1 = 31 := by decide
  have d2 : diasNoMes 2025 2 = 28 := by decide
  have d3 : diasNoMes 2025 3 = 31 := by decide
  refine ⟨?_, ?_, ?_⟩ <;>
    · norm_num [recalcularProjecaoSKU, projInOf, recalcAux, emitGo, entradasFinaisFn, pass2Go,
        pedidosFinaisFn, pass1Final, pass1Go, pass1Step, simularAteChegada, atualizar,
        ProjIn.estObjPorMes, ProjIn.estoqueInicial, ProjIn.lt, jsNumOr0, jsRound,
        mesesCenario1, cadCenario1, soCenario1, i0, i1, i2, p1, p2, p3, d1, d2, d3, max_def]
      try decide

/-- C8 (counterexample): the key `"2025_1"` violates the claimed
`YYYY_MM` format, yet `parseMesAno` returns the fully defined numeric
result `(2025, 1)` instead of failing or aborting. -/
theorem parseMesAno_failfast_cex :
    specFormatoMesAno "2025_1" = false ∧ parseMesAno "2025_1" = (some 2025, some 1) := by
  decide

/-- C8 (amended): `parseMesAno` performs no validation and never aborts: it
returns the `parseInt` of the two underscore-split components.  A
well-formed `YYYY_MM` key parses to its numbers; the non-conforming key
`"2025_1"` also parses leniently; a key with no leading digits in a
component silently yields the `NaN` component (`none`), and a digit prefix
is taken even when followed by garbage. -/
theorem parseMesAno_lenient :
    parseMesAno "2025_01" = (some 2025, some 1) ∧
    specFormatoMesAno "2025_01" = true ∧
    parseMesAno "2025_1" = (some 2025, some 1) ∧
    parseMesAno "abc" = (none, none) ∧
    parseMesAno "20a5_01" = (some 20, some 1) ∧
    parseMesAno "2025" = (some 2025, none) := by
  decide

/-- C10: on the valid January-2025 block list (days 7,7,7,7,3) with the
non-negative integer monthly total 7, every non-final block rounds to 2 and
the final block, which absorbs the rounding remainder, receives the strictly
negative value `7 - 8 = -1`; the values still sum to the input total. -/
theorem distribuicaoSimples_negativa :
    distribuirPedidoSimples 7 (calcularSemanasRestantes 2025 1 1) = [2, 2, 2, 2, -1] ∧
    ((-1 : ℚ) < 0) ∧
    (distribuirPedidoSimples 7 (calcularSemanasRestantes 2025 1 1)).sum = 7 := by
  have hsem : calcularSemanasRestantes 2025 1 1 =
      [⟨"S1", 1, 7, 7, none, none, none, none⟩, ⟨"S2", 8, 14, 7, none, none, none, none⟩,
       ⟨"S3", 15, 21, 7, none, none, none, none⟩, ⟨"S4", 22, 28, 7, none, none, none, none⟩,
       ⟨"S5", 29, 31, 3, none, none, none, none⟩] := by decide
  rw [hsem]
  norm_num [distribuirPedidoSimples, sumDias, dpsGo, jsRound]

/-! ## Status classifier: characterization -/

theorem statusFlags_eq (projecao : String → Option MesData) :
    ∀ (l : List (ℕ × String)) (fl : Bool × Bool),
      statusFlags projecao l fl
        = (fl.1 || algumMesExaminado projecao l (fun d => d.ESTOQUE_PROJETADO < 0),
           fl.2 || algumMesExaminado projecao l
             (fun d => !(d.ESTOQUE_PROJETADO < 0)
               && ((d.ESTOQUE_PROJETADO : ℚ) < (d.ESTOQUE_OBJETIVO : ℚ) * (4 / 5)))) := by
  intro l
  induction l with
  | nil => intro fl; simp [statusFlags, algumMesExaminado]
  | cons im resto ih =>
    intro fl
    obtain ⟨i, mes⟩ := im
    simp only [statusFlags]
    rw [ih]
    by_cases hi : i = 0
    · subst hi
      simp [algumMesExaminado]
    · cases hp : projecao mes with
      | none => simp [algumMesExaminado, hi, hp]
      | some d =>
        by_cases hneg : d.ESTOQUE_PROJETADO < 0
        · simp [algumMesExaminado, hi, hp, hneg, Bool.or_assoc]
        · by_cases hw : (d.ESTOQUE_PROJETADO : ℚ) < (d.ESTOQUE_OBJETIVO : ℚ) * (4 / 5)
          · simp [algumMesExaminado, hi, hp, hneg, hw, Bool.or_assoc]
          · simp [algumMesExaminado, hi, hp, hneg, hw]

theorem algumMes_warn_eq (projecao : String → Option MesData) :
    ∀ l : List (ℕ × String),
      algumMesExaminado projecao l (fun d => d.ESTOQUE_PROJETADO < 0) = false →
      algumMesExaminado projecao l
          (fun d => !(d.ESTOQUE_PROJETADO < 0)
            && ((d.ESTOQUE_PROJETADO : ℚ) < (d.ESTOQUE_OBJETIVO : ℚ) * (4 / 5)))
        = algumMesExaminado projecao l
          (fun d => (d.ESTOQUE_PROJETADO : ℚ) < (d.ESTOQUE_OBJETIVO : ℚ) * (4 / 5)) := by
  intro l
  induction l with
  | nil => intro _; rfl
  | cons im resto ih =>
    intro h
    obtain ⟨i, mes⟩ := im
    simp only [algumMesExaminado, Bool.or_eq_false_iff] at h
    obtain ⟨h1, h2⟩ := h
    simp only [algumMesExaminado]
    rw [ih h2]
    congr 1
    by_cases hi : i = 0
    · simp [hi]
    · cases hp : projecao mes with
      | none => simp [hp]
      | some d =>
        have hneg : decide (d.ESTOQUE_PROJETADO < 0) = false := by
          rw [hp] at h1
          simpa [hi] using h1
        simp [hp, hneg]

/-- C7: `getStatusSKU` coincides with the claim's classifier
(`specClassificaStatus`): it examines every month except month 0, returns
`critical` if any examined month's projected stock is negative, else
`warning` if any examined month's projected stock is below 80% of that
month's objective, else `ok` — critical taking precedence over warning. -/
theorem status_classificador_correto (projecao : String → Option MesData)
    (meses : List String) :
    getStatusSKU projecao meses = specClassificaStatus projecao meses := by
  unfold getStatusSKU specClassificaStatus
  rw [statusFlags_eq]
  simp only [Bool.false_or]
  by_cases hc : algumMesExaminado projecao meses.enum (fun d => d.ESTOQUE_PROJETADO < 0) = true
  · simp [hc]
  · rw [Bool.not_eq_true] at hc
    rw [algumMes_warn_eq projecao meses.enum hc, hc]
    try simp

/-! ## Weekly distribution: sums, remainders, eligibility -/

theorem foldl_add_init (f : SemanaInfo → ℤ) :
    ∀ (l : List SemanaInfo) (a : ℤ), l.foldl (fun acc s => acc + f s) a = a + (l.map f).sum := by
  intro l
  induction l with
  | nil => intro a; simp
  | cons s resto ih =>
    intro a
    simp only [List.foldl_cons, List.map_cons, List.sum_cons]
    rw [ih]
    ring

theorem dpsGo_length (p : ℚ) (t : ℤ) :
    ∀ (l : List SemanaInfo) (ac : ℚ), (dpsGo p t l ac).length = l.length := by
  intro l
  induction l with
  | nil => intro ac; rfl
  | cons s resto ih =>
    intro ac
    cases resto with
    | nil => rfl
    | cons s2 resto2 =>
      simp only [dpsGo, List.length_cons]
      rw [ih]
      simp

theorem dpsGo_sum (p : ℚ) (t : ℤ) :
    ∀ (l : List SemanaInfo) (ac : ℚ), l ≠ [] → (dpsGo p t l ac).sum = p - ac := by
  intro l
  induction l with
  | nil => intro ac h; exact absurd rfl h
  | cons s resto ih =>
    intro ac _
    cases resto with
    | nil => simp [dpsGo]
    | cons s2 resto2 =>
      simp only [dpsGo, List.sum_cons]
      rw [ih _ (List.cons_ne_nil s2 resto2)]
      ring

theorem distribuirPedidoSimples_length (p : ℚ) (l : List SemanaInfo) :
    (distribuirPedidoSimples p l).length = l.length := by
  cases l with
  | nil => rfl
  | cons s resto =>
    simp only [distribuirPedidoSimples]
    split
    · simp
    · rw [dpsGo_length]

theorem distribuirPedidoSimples_sum (p : ℚ) (l : List SemanaInfo)
    (h0 : l ≠ []) (ht : sumDias l ≠ 0) : (distribuirPedidoSimples p l).sum = p := by
  cases l with
  | nil => exact absurd rfl h0
  | cons s resto =>
    simp only [distribuirPedidoSimples]
    rw [if_neg ht, dpsGo_sum _ _ _ _ (List.cons_ne_nil s resto)]
    ring

theorem lastElegIdx_lt_length : ∀ l : List SemanaInfo, lastElegIdx l < l.length := by
  intro l
  induction l with
  | nil => simp [lastElegIdx]
  | cons s resto ih =>
    simp only [lastElegIdx, List.length_cons]
    split
    · push_cast; omega
    · split <;> (push_cast; omega)

theorem lastElegIdx_ge_neg_one : ∀ l : List SemanaInfo, -1 ≤ lastElegIdx l := by
  intro l
  induction l with
  | nil => simp [lastElegIdx]
  | cons s resto ih =>
    simp only [lastElegIdx]
    split
    · omega
    · split <;> omega

theorem lastElegIdx_neg_all : ∀ l : List SemanaInfo, lastElegIdx l = -1 →
    ∀ s ∈ l, s.elegivel = some false := by
  intro l
  induction l with
  | nil => intro _ s hs; cases hs
  | cons s resto ih =>
    intro h t ht
    simp only [lastElegIdx] at h
    by_cases hr : 0 ≤ lastElegIdx resto
    · rw [if_pos hr] at h; omega
    · rw [if_neg hr] at h
      have hresto : lastElegIdx resto = -1 := by
        have := lastElegIdx_ge_neg_one resto
        omega
      rcases List.mem_cons.mp ht with rfl | ht2
      · by_cases he : t.elegivel = some false
        · exact he
        · rw [if_neg he] at h; cases h
      · exact ih hresto t ht2

theorem diasElegiveis_ne_zero_lastElegIdx {l : List SemanaInfo}
    (h : diasElegiveis l ≠ 0) : 0 ≤ lastElegIdx l := by
  by_contra hneg
  have h1 : lastElegIdx l = -1 := by
    have := lastElegIdx_ge_neg_one l
    omega
  have hall := lastElegIdx_neg_all l h1
  apply h
  unfold diasElegiveis
  rw [show (fun (acc : ℤ) (s : SemanaInfo) => acc + if s.elegivel = some false then 0 else s.dias)
    = fun acc s => acc + (fun s : SemanaInfo => if s.elegivel = some false then 0 else s.dias) s
    from rfl]
  rw [foldl_add_init]
  have : (l.map fun s : SemanaInfo => if s.elegivel = some false then 0 else s.dias)
      = l.map fun _ => (0 : ℤ) := by
    apply List.map_congr_left
    intro s hs
    rw [if_pos (hall s hs)]
  rw [this]
  simp

theorem lastElegIdx_after : ∀ (l : List SemanaInfo) (j : ℕ) (hj : j < l.length),
    lastElegIdx l < j → (l.get ⟨j, hj⟩).elegivel = some false := by
  intro l
  induction l with
  | nil => intro j hj _; cases hj
  | cons s resto ih =>
    intro j hj hlt
    simp only [lastElegIdx] at hlt
    cases j with
    | zero =>
      by_cases hr : 0 ≤ lastElegIdx resto
      · rw [if_pos hr] at hlt; omega
      · rw [if_neg hr] at hlt
        by_cases he : s.elegivel = some false
        · exact he
        · rw [if_neg he] at hlt; omega
    | succ j =>
      have hj2 : j < resto.length := by simpa using hj
      simp only [List.get_cons_succ]
      by_cases hr : 0 ≤ lastElegIdx resto
      · rw [if_pos hr] at hlt
        exact ih j hj2 (by push_cast at hlt ⊢; omega)
      · have hresto : lastElegIdx resto = -1 := by
          have := lastElegIdx_ge_neg_one resto
          omega
        exact lastElegIdx_neg_all resto hresto _ (List.get_mem _ _ _)

theorem lastElegIdx_self : ∀ (l : List SemanaInfo) (j : ℕ) (hj : j < l.length),
    (j : ℤ) = lastElegIdx l → (l.get ⟨j, hj⟩).elegivel ≠ some false := by
  intro l
  induction l with
  | nil => intro j hj _; cases hj
  | cons s resto ih =>
    intro j hj heq
    simp only [lastElegIdx] at heq
    cases j with
    | zero =>
      by_cases hr : 0 ≤ lastElegIdx resto
      · rw [if_pos hr] at heq; omega
      · rw [if_neg hr] at heq
        by_cases he : s.elegivel = some false
        · rw [if_pos he] at heq; cases heq
        · exact he
    | succ j =>
      have hj2 : j < resto.length := by simpa using hj
      simp only [List.get_cons_succ]
      by_cases hr : 0 ≤ lastElegIdx resto
      · rw [if_pos hr] at heq
        exact ih j hj2 (by push_cast at heq ⊢; omega)
      · rw [if_neg hr] at heq
        split at heq <;> omega

theorem dppGo_sum (p : ℚ) (de lastIdx : ℤ) :
    ∀ (l : List SemanaInfo) (i : ℕ) (ac : ℚ),
      ((i : ℤ) ≤ lastIdx → lastIdx < (i : ℤ) + l.length) →
      (∀ (j : ℕ) (hj : j < l.length), lastIdx < (i : ℤ) + j →
        (l.get ⟨j, hj⟩).elegivel = some false) →
      (∀ (j : ℕ) (hj : j < l.length), (i : ℤ) + j = lastIdx →
        (l.get ⟨j, hj⟩).elegivel ≠ some false) →
      (dppGo p de lastIdx l i ac).sum = if (i : ℤ) ≤ lastIdx then p - ac else 0 := by
  intro l
  induction l with
  | nil =>
    intro i ac h1 _ _
    simp only [List.length_nil, Nat.cast_zero, add_zero] at h1
    rw [dppGo, List.sum_nil, if_neg (by intro hle; have := h1 hle; omega)]
  | cons s resto ih =>
    intro i ac h1 h2 h3
    have hlen : ((s :: resto).length : ℤ) = (resto.length : ℤ) + 1 := by
      simp only [List.length_cons]; push_cast; ring
    rcases lt_trichotomy (i : ℤ) lastIdx with hlt | heqi | hgt
    · -- before the last eligible block
      have hne : ¬ ((i : ℤ) = lastIdx) := by omega
      have h1' : ((i : ℤ) + 1 ≤ lastIdx → lastIdx < ((i : ℤ) + 1) + resto.length) := by
        intro _
        have := h1 (le_of_lt hlt)
        rw [hlen] at this
        omega
      have h2' : ∀ (j : ℕ) (hj : j < resto.length), lastIdx < ((i + 1 : ℕ) : ℤ) + j →
          (resto.get ⟨j, hj⟩).elegivel = some false := by
        intro j hj hcond
        have := h2 (j + 1) (by simpa using Nat.succ_lt_succ hj) (by push_cast at hcond ⊢; omega)
        simpa using this
      have h3' : ∀ (j : ℕ) (hj : j < resto.length), ((i + 1 : ℕ) : ℤ) + j = lastIdx →
          (resto.get ⟨j, hj⟩).elegivel ≠ some false := by
        intro j hj hcond
        have := h3 (j + 1) (by simpa using Nat.succ_lt_succ hj) (by push_cast at hcond ⊢; omega)
        simpa using this
      by_cases he : s.elegivel = some false
      · simp only [dppGo, if_pos he, List.sum_cons]
        rw [ih (i + 1) ac (by push_cast; exact h1') h2' h3']
        rw [if_pos (by push_cast; omega), if_pos (le_of_lt hlt)]
        ring
      · simp only [dppGo, if_neg he, if_neg hne, List.sum_cons]
        rw [ih (i + 1) _ (by push_cast; exact h1') h2' h3']
        rw [if_pos (by push_cast; omega), if_pos (le_of_lt hlt)]
        ring
    · -- this is the last eligible block
      have he : s.elegivel ≠ some false := by
        have := h3 0 (by simp) (by simpa using heqi)
        simpa using this
      have h2' : ∀ (j : ℕ) (hj : j < resto.length), lastIdx < ((i + 1 : ℕ) : ℤ) + j →
          (resto.get ⟨j, hj⟩).elegivel = some false := by
        intro j hj hcond
        have := h2 (j + 1) (by simpa using Nat.succ_lt_succ hj) (by push_cast at hcond ⊢; omega)
        simpa using this
      have h3' : ∀ (j : ℕ) (hj : j < resto.length), ((i + 1 : ℕ) : ℤ) + j = lastIdx →
          (resto.get ⟨j, hj⟩).elegivel ≠ some false := by
        intro j hj hcond
        exfalso
        omega
      simp only [dppGo, if_neg he, if_pos heqi, List.sum_cons]
      rw [ih (i + 1) ac (by intro hcon; push_cast at hcon; omega) h2' h3']
      rw [if_neg (by push_cast; omega), if_pos (le_of_eq heqi)]
      ring
    · -- past the last eligible block: everything ineligible
      have he : s.elegivel = some false := by
        have := h2 0 (by simp) (by simpa using hgt)
        simpa using this
      have h2' : ∀ (j : ℕ) (hj : j < resto.length), lastIdx < ((i + 1 : ℕ) : ℤ) + j →
          (resto.get ⟨j, hj⟩).elegivel = some false := by
        intro j hj hcond
        have := h2 (j + 1) (by simpa using Nat.succ_lt_succ hj) (by push_cast at hcond ⊢; omega)
        simpa using this
      have h3' : ∀ (j : ℕ) (hj : j < resto.length), ((i + 1 : ℕ) : ℤ) + j = lastIdx →
          (resto.get ⟨j, hj⟩).elegivel ≠ some false := by
        intro j hj hcond
        exfalso
        omega
      simp only [dppGo, if_pos he, List.sum_cons]
      rw [ih (i + 1) ac (by intro hcon; push_cast at hcon; omega) h2' h3']
      rw [if_neg (by push_cast; omega), if_neg (by omega)]
      ring

theorem dppGo_get_inelegivel (p : ℚ) (de lastIdx : ℤ) :
    ∀ (l : List SemanaInfo) (i : ℕ) (ac : ℚ) (j : ℕ) (hj : j < l.length),
      (l.get ⟨j, hj⟩).elegivel = some false →
      (dppGo p de lastIdx l i ac).get? j = some 0 := by
  intro l
  induction l with
  | nil => intro i ac j hj _; cases hj
  | cons s resto ih =>
    intro i ac j hj he
    cases j with
    | zero =>
      have he0 : s.elegivel = some false := he
      simp [dppGo, he0]
    | succ j =>
      have hj2 : j < resto.length := by simpa using hj
      have he2 : (resto.get ⟨j, hj2⟩).elegivel = some false := he
      by_cases he0 : s.elegivel = some false
      · simp only [dppGo, if_pos he0, List.get?_cons_succ]
        exact ih (i + 1) ac j hj2 he2
      · by_cases hi : (i : ℤ) = lastIdx
        · simp only [dppGo, if_neg he0, if_pos hi, List.get?_cons_succ]
          exact ih (i + 1) ac j hj2 he2
        · simp only [dppGo, if_neg he0, if_neg hi, List.get?_cons_succ]
          exact ih (i + 1) _ j hj2 he2

/-- C4 (amended): each weekly-distribution call reconciles exactly to the
input monthly total whenever the relevant day-count denominator is nonzero:
for `distribuirPedidoSimples` on a non-empty block list with nonzero total
days the values sum exactly to the total and the final block carries the
total minus every other (rounded) value, i.e. absorbs the whole rounding
remainder; for `distribuirPedidoPorSemanas` with nonzero eligible days the
values sum exactly to the total and every ineligible block receives exactly
0.  When the denominator is zero (e.g. the empty list), every block gets 0
and the sum is 0, not the total — see the counterexample. -/
theorem distribuicao_soma_condicional :
    (∀ (p : ℚ) (l : List SemanaInfo), l ≠ [] → sumDias l ≠ 0 →
      (distribuirPedidoSimples p l).sum = p ∧
      (distribuirPedidoSimples p l).getLast?
        = some (p - ((distribuirPedidoSimples p l).dropLast).sum)) ∧
    (∀ (p : ℚ) (l : List SemanaInfo), diasElegiveis l ≠ 0 →
      (distribuirPedidoPorSemanas p l).sum = p ∧
      ∀ (j : ℕ) (hj : j < l.length), (l.get ⟨j, hj⟩).elegivel = some false →
        (distribuirPedidoPorSemanas p l).get? j = some 0) := by
  constructor
  · intro p l h0 ht
    have hsum := distribuirPedidoSimples_sum p l h0 ht
    refine ⟨hsum, ?_⟩
    have hne : distribuirPedidoSimples p l ≠ [] := by
      intro hc
      apply h0
      have := distribuirPedidoSimples_length p l
      rw [hc] at this
      exact List.length_eq_zero.mp this.symm
    have hdecomp := List.dropLast_append_getLast hne
    have : (distribuirPedidoSimples p l).sum
        = ((distribuirPedidoSimples p l).dropLast).sum
          + (distribuirPedidoSimples p l).getLast hne := by
      conv_lhs => rw [← hdecomp]
      rw [List.sum_append]
      simp
    rw [List.getLast?_eq_getLast _ hne]
    rw [hsum] at this
    rw [show (distribuirPedidoSimples p l).getLast hne
      = p - ((distribuirPedidoSimples p l).dropLast).sum from by linarith]
  · intro p l hde
    have hl0 : l ≠ [] := by
      intro hc
      subst hc
      exact hde rfl
    have hlast0 : 0 ≤ lastElegIdx l := diasElegiveis_ne_zero_lastElegIdx hde
    have hlastlt := lastElegIdx_lt_length l
    constructor
    · cases l with
      | nil => exact absurd rfl hl0
      | cons s resto =>
        simp only [distribuirPedidoPorSemanas]
        rw [if_neg hde]
        rw [dppGo_sum p (diasElegiveis (s :: resto)) (lastElegIdx (s :: resto)) (s :: resto) 0 0
          (fun _ => by simpa using lastElegIdx_lt_length (s :: resto))
          (fun j hj hcond => lastElegIdx_after (s :: resto) j hj (by simpa using hcond))
          (fun j hj hcond => lastElegIdx_self (s :: resto) j hj (by simpa using hcond))]
        rw [if_pos (by simpa using hlast0)]
        ring
    · intro j hj hinel
      cases l with
      | nil => exact absurd rfl hl0
      | cons s resto =>
        simp only [distribuirPedidoPorSemanas]
        rw [if_neg hde]
        exact dppGo_get_inelegivel p _ _ (s :: resto) 0 0 j hj hinel

/-- C4 (counterexample): `distribuirPedidoPorSemanas` on the empty block
list returns `[]`, whose sum 0 differs from the input total 5; and
`distribuirPedidoSimples` on a non-empty list whose blocks have zero total
days returns all zeros, whose sum 0 differs from the input total 3. -/
theorem distribuicao_soma_cex :
    distribuirPedidoPorSemanas 5 [] = ([] : List ℚ) ∧ (([] : List ℚ).sum = 0) ∧
    ¬ ((0 : ℚ) = 5) ∧
    distribuirPedidoSimples 3 [⟨"S1", 1, 0, 0, none, none, none, none⟩] = [0] ∧
    ¬ (([(0 : ℚ)].sum) = 3) := by
  refine ⟨rfl, rfl, by norm_num, ?_, by norm_num⟩
  norm_num [distribuirPedidoSimples, sumDias]

theorem distribuicao_soma_condicional_wit :
    (calcularSemanasRestantes 2025 1 1 ≠ [] ∧
      sumDias (calcularSemanasRestantes 2025 1 1) ≠ 0 ∧
      (distribuirPedidoSimples 100 (calcularSemanasRestantes 2025 1 1)).sum = 100) ∧
    (diasElegiveis (calcularSemanasRestantes 2025 1 1) ≠ 0 ∧
      (distribuirPedidoPorSemanas 100 (calcularSemanasRestantes 2025 1 1)).sum = 100) := by
  refine ⟨⟨by decide, by decide, ?_⟩, by decide, ?_⟩
  · exact (distribuicao_soma_condicional.1 100 _ (by decide) (by decide)).1
  · exact (distribuicao_soma_condicional.2 100 _ (by decide)).1

/-! ## Coverage monotonicity -/

theorem semanasFold_dias_pos (t r : ℤ) :
    ∀ (bl : List (String × ℤ × ℤ)) (acc : List SemanaInfo),
      (∀ s ∈ acc, 0 < s.dias) →
      ∀ s ∈ bl.foldr (semanasFoldStep t r) acc, 0 < s.dias := by
  intro bl
  induction bl with
  | nil => intro acc hacc; exact hacc
  | cons b resto ih =>
    intro acc hacc s hs
    simp only [List.foldr_cons] at hs
    unfold semanasFoldStep at hs
    split at hs
    · exact ih acc hacc s hs
    · split at hs
      · rcases List.mem_cons.mp hs with rfl | hs2
        · assumption
        · exact ih acc hacc s hs2
      · exact ih acc hacc s hs

theorem calcularSemanasRestantes_dias_pos (ano mes diaRef : ℤ) :
    ∀ s ∈ calcularSemanasRestantes ano mes diaRef, 0 < s.dias := by
  intro s hs
  exact semanasFold_dias_pos _ _ _ _ (by intro s2 hs2; cases hs2) s hs

theorem sumDias_pos {l : List SemanaInfo} (h0 : l ≠ [])
    (hd : ∀ s ∈ l, 0 < s.dias) : 0 < sumDias l := by
  unfold sumDias
  rw [show (fun (acc : ℤ) (s : SemanaInfo) => acc + s.dias)
    = fun acc s => acc + (fun s : SemanaInfo => s.dias) s from rfl]
  rw [foldl_add_init]
  have : 0 < (l.map fun s : SemanaInfo => s.dias).sum := by
    apply List.sum_pos
    · intro x hx
      obtain ⟨s, hs, rfl⟩ := List.mem_map.mp hx
      exact hd s hs
    · simpa using h0
  linarith

theorem dpsGo_dropLast_nonneg (p : ℚ) (t : ℤ) (hp : 0 ≤ p) (ht : 0 < t) :
    ∀ (l : List SemanaInfo) (ac : ℚ), (∀ s ∈ l, 0 < s.dias) →
      ∀ v ∈ (dpsGo p t l ac).dropLast, 0 ≤ v := by
  intro l
  induction l with
  | nil => intro ac _ v hv; cases hv
  | cons s resto ih =>
    intro ac hdias v hv
    cases resto with
    | nil => simp [dpsGo] at hv
    | cons s2 resto2 =>
      have hne : dpsGo p t (s2 :: resto2) (ac + (jsRound (p * ((s.dias : ℚ) / (t : ℚ))) : ℚ))
          ≠ [] := by
        intro hc
        have hl := dpsGo_length p t (s2 :: resto2)
          (ac + (jsRound (p * ((s.dias : ℚ) / (t : ℚ))) : ℚ))
        rw [hc] at hl
        simp at hl
      simp only [dpsGo] at hv
      rw [List.dropLast_cons_of_ne_nil hne] at hv
      rcases List.mem_cons.mp hv with rfl | h2
      · have hdias0 : (0 : ℚ) < (s.dias : ℚ) := by exact_mod_cast hdias s (by simp)
        have ht0 : (0 : ℚ) < (t : ℚ) := by exact_mod_cast ht
        have hnn : (0 : ℚ) ≤ p * ((s.dias : ℚ) / (t : ℚ)) :=
          mul_nonneg hp (le_of_lt (div_pos hdias0 ht0))
        exact_mod_cast jsRound_nonneg hnn
      · exact ih _ (fun s3 hs3 => hdias s3 (List.mem_cons_of_mem s hs3)) v h2

theorem distribuirPedidoSimples_dropLast_nonneg (p : ℚ) (l : List SemanaInfo) (hp : 0 ≤ p)
    (hdias : ∀ s ∈ l, 0 < s.dias) :
    ∀ v ∈ (distribuirPedidoSimples p l).dropLast, 0 ≤ v := by
  cases l with
  | nil => intro v hv; cases hv
  | cons s resto =>
    intro v hv
    simp only [distribuirPedidoSimples] at hv
    split at hv
    · have := List.dropLast_subset _ hv
      obtain ⟨s2, _, rfl⟩ := List.mem_map.mp this
      exact le_refl 0
    · have ht : 0 < sumDias (s :: resto) :=
        sumDias_pos (List.cons_ne_nil s resto) hdias
      exact dpsGo_dropLast_nonneg p _ hp ht (s :: resto) 0 hdias v hv

theorem dpsGo_int (n : ℤ) (t : ℤ) :
    ∀ (l : List SemanaInfo) (ac : ℚ), (∃ zc : ℤ, ac = (zc : ℚ)) →
      ∀ v ∈ dpsGo (n : ℚ) t l ac, ∃ z : ℤ, v = (z : ℚ) := by
  intro l
  induction l with
  | nil => intro ac _ v hv; cases hv
  | cons s resto ih =>
    intro ac hac v hv
    obtain ⟨zc, rfl⟩ := hac
    cases resto with
    | nil =>
      simp only [dpsGo, List.mem_singleton] at hv
      exact ⟨n - zc, by rw [hv]; push_cast; ring⟩
    | cons s2 resto2 =>
      simp only [dpsGo] at hv
      rcases List.mem_cons.mp hv with rfl | h2
      · exact ⟨jsRound ((n : ℚ) * ((s.dias : ℚ) / (t : ℚ))), rfl⟩
      · exact ih _ ⟨zc + jsRound ((n : ℚ) * ((s.dias : ℚ) / (t : ℚ))), by push_cast; ring⟩ v h2

theorem distribuirPedidoSimples_int (n : ℤ) (l : List SemanaInfo) :
    ∀ v ∈ distribuirPedidoSimples (n : ℚ) l, ∃ z : ℤ, v = (z : ℚ) := by
  cases l with
  | nil => intro v hv; cases hv
  | cons s resto =>
    intro v hv
    simp only [distribuirPedidoSimples] at hv
    split at hv
    · obtain ⟨s2, _, rfl⟩ := List.mem_map.mp hv
      exact ⟨0, rfl⟩
    · exact dpsGo_int n _ (s :: resto) 0 ⟨0, by norm_num⟩ v hv

theorem distribuirPedidoSimples_sum_nonneg (p : ℚ) (l : List SemanaInfo) (hp : 0 ≤ p) :
    0 ≤ (distribuirPedidoSimples p l).sum := by
  cases l with
  | nil => simp [distribuirPedidoSimples]
  | cons s resto =>
    simp only [distribuirPedidoSimples]
    split
    · have hz : ((s :: resto).map fun _ => (0 : ℚ)).sum = 0 :=
        List.sum_eq_zero (by intro x hx; obtain ⟨_, _, rfl⟩ := List.mem_map.mp hx; rfl)
      rw [hz]
    · rw [dpsGo_sum p _ (s :: resto) 0 (List.cons_ne_nil s resto)]
      linarith

theorem zip_map_snd : ∀ (A : List SemanaInfo) (B : List ℚ), A.length = B.length →
    ((A.zip B).map Prod.snd) = B := by
  intro A
  induction A with
  | nil =>
    intro B hB
    cases B
    · rfl
    · cases hB
  | cons a A2 ih =>
    intro B hB
    cases B with
    | nil => cases hB
    | cons b B2 =>
      simp only [List.zip_cons_cons, List.map_cons]
      rw [ih B2 (by simpa using hB)]

theorem zip_dropLast : ∀ (A : List SemanaInfo) (B : List ℚ), A.length = B.length →
    (A.zip B).dropLast = A.dropLast.zip B.dropLast := by
  intro A
  induction A with
  | nil => intro B _; simp
  | cons a A2 ih =>
    intro B hB
    cases B with
    | nil => cases hB
    | cons b B2 =>
      cases A2 with
      | nil =>
        cases B2 with
        | nil => simp
        | cons b2 B3 => cases hB
      | cons a2 A3 =>
        cases B2 with
        | nil => cases hB
        | cons b2 B3 =>
          simp only [List.zip_cons_cons, List.dropLast_cons₂]
          rw [← List.zip_cons_cons, ih (b2 :: B3) (by simpa using hB)]

theorem consumirSemanas_stop : ∀ (l : List (SemanaInfo × ℚ)) (st : ConsumoSemanas),
    st.diasRestantes ≤ 0 → consumirSemanas l st = st := by
  intro l
  induction l with
  | nil => intro st _; rfl
  | cons q resto ih =>
    intro st h
    obtain ⟨sem, w⟩ := q
    simp only [consumirSemanas, if_pos h]
    exact ih st h

theorem consumirSemanas_valor_nonneg :
    ∀ (l : List (SemanaInfo × ℚ)) (st : ConsumoSemanas),
      0 ≤ st.valorAntecipado →
      0 ≤ st.valorAntecipado + (l.map Prod.snd).sum →
      (∀ q ∈ l.dropLast, 0 ≤ q.2) →
      (∀ q ∈ l, 0 < q.1.dias) →
      (∀ q ∈ l, ∃ z : ℤ, q.2 = (z : ℚ)) →
      0 ≤ (consumirSemanas l st).valorAntecipado := by
  intro l
  induction l with
  | nil => intro st h _ _ _ _; exact h
  | cons q resto ih =>
    intro st hva hsum hdrop hdias hint
    obtain ⟨sem, w⟩ := q
    by_cases hstop : st.diasRestantes ≤ 0
    · rw [consumirSemanas_stop _ _ hstop]
      exact hva
    · push_neg at hstop
      simp only [consumirSemanas, if_neg (not_le.mpr hstop)]
      by_cases hfit : sem.dias ≤ st.diasRestantes
      · rw [if_pos hfit]
        cases resto with
        | nil =>
          show 0 ≤ (consumirSemanas [] _).valorAntecipado
          simp only [consumirSemanas]
          simp only [List.map_cons, List.map_nil, List.sum_cons, List.sum_nil] at hsum
          simpa using hsum
        | cons q2 resto2 =>
          have hw : 0 ≤ w := hdrop (sem, w) (by
            rw [List.dropLast_cons_of_ne_nil (List.cons_ne_nil q2 resto2)]
            exact List.mem_cons_self _ _)
          refine ih _ (by simpa using add_nonneg hva hw) ?_ ?_ ?_ ?_
          · simp only [List.map_cons, List.sum_cons] at hsum ⊢
            linarith
          · intro q hq
            refine hdrop q ?_
            rw [List.dropLast_cons_of_ne_nil (List.cons_ne_nil q2 resto2)]
            exact List.mem_cons_of_mem _ hq
          · intro q hq; exact hdias q (List.mem_cons_of_mem _ hq)
          · intro q hq; exact hint q (List.mem_cons_of_mem _ hq)
      · rw [if_neg hfit]
        push_neg at hfit
        rw [consumirSemanas_stop _ _ (le_refl 0)]
        have hdias0 : 0 < sem.dias := hdias (sem, w) (List.mem_cons_self _ _)
        have hprop_pos : (0 : ℚ) < (st.diasRestantes : ℚ) / (sem.dias : ℚ) :=
          div_pos (by exact_mod_cast hstop) (by exact_mod_cast hdias0)
        have hprop_le : (st.diasRestantes : ℚ) / (sem.dias : ℚ) ≤ 1 := by
          rw [div_le_one (by exact_mod_cast hdias0)]
          exact_mod_cast le_of_lt hfit
        cases resto with
        | nil =>
          obtain ⟨z, rfl⟩ := hint (sem, w) (List.mem_cons_self _ _)
          simp only [List.map_cons, List.map_nil, List.sum_cons, List.sum_nil, add_zero] at hsum
          by_cases hz : 0 ≤ z
          · have hmn : (0 : ℚ) ≤ (z : ℚ) * ((st.diasRestantes : ℚ) / (sem.dias : ℚ)) :=
              mul_nonneg (by exact_mod_cast hz) (le_of_lt hprop_pos)
            have hr : (0 : ℚ)
                ≤ (jsRound ((z : ℚ) * ((st.diasRestantes : ℚ) / (sem.dias : ℚ))) : ℚ) := by
              exact_mod_cast jsRound_nonneg hmn
            show 0 ≤ st.valorAntecipado + _
            linarith [hva, hr]
          · push_neg at hz
            have hzq : ((z : ℚ)) ≤ 0 := by exact_mod_cast le_of_lt hz
            have hmul : (z : ℚ) * 1 ≤ (z : ℚ) * ((st.diasRestantes : ℚ) / (sem.dias : ℚ)) :=
              mul_le_mul_of_nonpos_left hprop_le hzq
            have hround : (z : ℤ) ≤ jsRound ((z : ℚ) * ((st.diasRestantes : ℚ) / (sem.dias : ℚ))) := by
              have := jsRound_mono (by linarith [hmul] :
                ((z : ℤ) : ℚ) ≤ (z : ℚ) * ((st.diasRestantes : ℚ) / (sem.dias : ℚ)))
              rwa [jsRound_intCast] at this
            show 0 ≤ st.valorAntecipado + _
            have : ((z : ℤ) : ℚ)
                ≤ (jsRound ((z : ℚ) * ((st.diasRestantes : ℚ) / (sem.dias : ℚ))) : ℚ) := by
              exact_mod_cast hround
            linarith [hsum]
        | cons q2 resto2 =>
          have hw : 0 ≤ w := hdrop (sem, w) (by
            rw [List.dropLast_cons_of_ne_nil (List.cons_ne_nil q2 resto2)]
            exact List.mem_cons_self _ _)
          have hmn : (0 : ℚ) ≤ w * ((st.diasRestantes : ℚ) / (sem.dias : ℚ)) :=
            mul_nonneg hw (le_of_lt hprop_pos)
          have hr : (0 : ℚ)
              ≤ (jsRound (w * ((st.diasRestantes : ℚ) / (sem.dias : ℚ))) : ℚ) := by
            exact_mod_cast jsRound_nonneg hmn
          show 0 ≤ st.valorAntecipado + _
          linarith [hva, hr]

theorem pedidoLookup_nonneg (P : ProjIn) (hall : ∀ k2, P.pedidosManuais k2 = none)
    (k : String) : 0 ≤ ((recalcAux P k).map (fun d => d.PEDIDO)).getD 0 := by
  cases h : recalcAux P k with
  | none => simp
  | some d =>
    have := recalcAux_PEDIDO h
    simp only [Option.map_some', Option.getD_some]
    rw [this]
    exact jsRound_nonneg (pedidosFinaisFn_nonneg P k (hall k))

theorem consumoSemanas_dps_nonneg (n : ℤ) (hn : 0 ≤ n) (sem : List SemanaInfo)
    (hdias : ∀ s ∈ sem, 0 < s.dias) (dr : ℤ) :
    0 ≤ (consumirSemanas (sem.zip (distribuirPedidoSimples ((n : ℤ) : ℚ) sem))
      ⟨dr, 0, 0⟩).valorAntecipado := by
  have hlen : sem.length = (distribuirPedidoSimples ((n : ℤ) : ℚ) sem).length :=
    (distribuirPedidoSimples_length _ _).symm
  have hnp : (0 : ℚ) ≤ ((n : ℤ) : ℚ) := by exact_mod_cast hn
  apply consumirSemanas_valor_nonneg
  · exact le_refl 0
  · rw [zip_map_snd _ _ hlen]
    simpa using distribuirPedidoSimples_sum_nonneg _ _ hnp
  · intro q hq
    rw [zip_dropLast _ _ hlen] at hq
    exact distribuirPedidoSimples_dropLast_nonneg _ _ hnp hdias q.2 (List.of_mem_zip hq).2
  · intro q hq
    exact hdias q.1 (List.of_mem_zip hq).1
  · intro q hq
    exact distribuirPedidoSimples_int _ _ q.2 (List.of_mem_zip hq).2

theorem consumoMes_nonneg (projN : String → Option MesData) (mesKeyI : String) (dr : ℤ)
    (hped : 0 ≤ ((projN mesKeyI).map (fun d => d.PEDIDO)).getD 0) :
    0 ≤ (consumirSemanas
      ((calcularSemanasRestantes (parseMesAnoZ mesKeyI).1 (parseMesAnoZ mesKeyI).2 1).zip
        (distribuirPedidoSimples
          ((((projN mesKeyI).map (fun d => d.PEDIDO)).getD 0 : ℤ) : ℚ)
          (calcularSemanasRestantes (parseMesAnoZ mesKeyI).1 (parseMesAnoZ mesKeyI).2 1)))
      ⟨dr, 0, 0⟩).valorAntecipado :=
  consumoSemanas_dps_nonneg _ hped _ (calcularSemanasRestantes_dias_pos _ _ _) dr

theorem coberturaMesesGo_total_mono (projN : String → Option MesData) (meses : List String)
    (hped : ∀ k, 0 ≤ ((projN k).map (fun d => d.PEDIDO)).getD 0) :
    ∀ (fuel i : ℕ) (st : CoberturaLoopState),
      st.totalAntecipado ≤ (coberturaMesesGo projN meses fuel i st).totalAntecipado := by
  intro fuel
  induction fuel with
  | zero => intro i st; exact le_refl _
  | succ fuel ih =>
    intro i st
    simp only [coberturaMesesGo]
    split
    · refine le_trans ?_ (ih (i + 1) _)
      exact le_add_of_nonneg_right
        (consumoMes_nonneg projN (meses.getD i "") st.diasRestantes (hped _))
    · exact le_refl _

/-- C3: the coverage result of `calcularCoberturaPorData` always satisfies
`totalAntecipado ≥ 0` and `pedidoCobertura ≥ pedidoNormalMes1` — the
anticipation only adds to, never subtracts from, the normal month-1 order
(the coverage order is by construction their sum, and every per-month
anticipated amount is non-negative because the baseline projection's orders
are non-negative and the final distributed block's possible negative
remainder is always compensated within its own month). -/
theorem coberturaLoop_total_nonneg (projN : String → Option MesData) (meses : List String)
    (dpa : ℤ) (hped : ∀ k, 0 ≤ ((projN k).map (fun d => d.PEDIDO)).getD 0) :
    0 ≤ (coberturaLoop projN meses dpa).totalAntecipado := by
  unfold coberturaLoop
  split
  · exact coberturaMesesGo_total_mono _ _ hped _ _ _
  · exact le_refl 0

theorem cobertura_total_shape (cadastro : SKUCadastro) (meses : List String)
    (sellOutPorMes : String → JSNum) (dataCobertura dataReferencia : ℤ) :
    ∃ dpa : ℤ,
      (calcularCoberturaPorData cadastro meses sellOutPorMes dataCobertura
          dataReferencia).totalAntecipado
        = (coberturaLoop
            (recalcularProjecaoSKU cadastro meses sellOutPorMes (fun _ => none) (fun _ => 0)
              (some (civilFromDays dataReferencia)))
            meses dpa).totalAntecipado :=
  ⟨_, rfl⟩

theorem cobertura_soma_shape (cadastro : SKUCadastro) (meses : List String)
    (sellOutPorMes : String → JSNum) (dataCobertura dataReferencia : ℤ) :
    (calcularCoberturaPorData cadastro meses sellOutPorMes dataCobertura
        dataReferencia).pedidoCobertura
      = (calcularCoberturaPorData cadastro meses sellOutPorMes dataCobertura
          dataReferencia).pedidoNormalMes1
        + (calcularCoberturaPorData cadastro meses sellOutPorMes dataCobertura
          dataReferencia).totalAntecipado :=
  rfl

theorem cobertura_monotona (cadastro : SKUCadastro) (meses : List String)
    (sellOutPorMes : String → JSNum) (dataCobertura dataReferencia : ℤ)
    (_h0 : meses ≠ []) :
    0 ≤ (calcularCoberturaPorData cadastro meses sellOutPorMes dataCobertura
        dataReferencia).totalAntecipado ∧
    (calcularCoberturaPorData cadastro meses sellOutPorMes dataCobertura
        dataReferencia).pedidoNormalMes1
      ≤ (calcularCoberturaPorData cadastro meses sellOutPorMes dataCobertura
        dataReferencia).pedidoCobertura := by
  have hped : ∀ k, 0 ≤ ((recalcularProjecaoSKU cadastro meses sellOutPorMes (fun _ => none)
      (fun _ => 0) (some (civilFromDays dataReferencia)) k).map (fun d => d.PEDIDO)).getD 0 :=
    fun k => pedidoLookup_nonneg
      (projInOf cadastro meses sellOutPorMes (fun _ => none) (some (civilFromDays dataReferencia)))
      (fun _ => rfl) k
  obtain ⟨dpa, heq⟩ :=
    cobertura_total_shape cadastro meses sellOutPorMes dataCobertura dataReferencia
  have htot : 0 ≤ (calcularCoberturaPorData cadastro meses sellOutPorMes dataCobertura
      dataReferencia).totalAntecipado := by
    rw [heq]
    exact coberturaLoop_total_nonneg _ _ _ hped
  refine ⟨htot, ?_⟩
  rw [cobertura_soma_shape cadastro meses sellOutPorMes dataCobertura dataReferencia]
  exact le_add_of_nonneg_right htot

theorem cobertura_monotona_wit :
    mesesCobertura ≠ [] ∧
    (0 ≤ (calcularCoberturaPorData cadCobertura mesesCobertura soCobertura
        (dateUTC 2025 1 23) (dateUTC 2025 1 13)).totalAntecipado ∧
      (calcularCoberturaPorData cadCobertura mesesCobertura soCobertura
          (dateUTC 2025 1 23) (dateUTC 2025 1 13)).pedidoNormalMes1
        ≤ (calcularCoberturaPorData cadCobertura mesesCobertura soCobertura
          (dateUTC 2025 1 23) (dateUTC 2025 1 13)).pedidoCobertura) :=
  ⟨by decide,
    cobertura_monotona cadCobertura mesesCobertura soCobertura
      (dateUTC 2025 1 23) (dateUTC 2025 1 13) (by decide)⟩

end Planejamento
